import Mathlib

/-!
# Verification of the universal-silabs-flasher protocol core

A shallow embedding of the protocol and orchestration core of the
universal-silabs-flasher repository, together with proofs about the embedded
definitions.  Byte strings are modelled as `List Nat` (each element a byte
value `< 256`); Python integers are `Nat`; fallible code returns `Option` or
`Except`.  Bitwise source idioms on byte-sized values are translated to the
equal arithmetic form where this helps the proofs: `x & 0x7F = x % 128`,
`x & 0xFF = x % 256`, `x >> 7 = x / 128`, `c | 0x80 = c + 128` for `c < 128`,
and `(n << 7) | c = 128 * n + c` for `c < 128`.

Modules embedded (from `universal_silabs_flasher/`): `common.py` (CRCs,
`pad_to_multiple`, `Version`, `put_first`), `spinel_types.py` (`PackedUInt21`),
`spinel.py` (HDLC-Lite and Spinel frames, `SpinelProtocol.send_frame`),
`cpc.py` (CPC transport and unnumbered frames, `CPCProtocol.data_received`,
`CPCProtocol.send_unnumbered_frame`), `xmodemcrc.py`, `firmware.py`
(GBL/EBL serialization, `NabuCasaMetadata.from_json`), `const.py`, and
`gecko_bootloader.py` (`run_firmware`, menu detection).

The sources of `cpc_types.py` and of the zigpy GBL/EBL tag-stream parsers are
not part of the source tree; those definitions are modelled from the spec and
are marked `Modelled from the spec:` in their doc comments.
-/

set_option maxRecDepth 4096

namespace USF

/-! ## Byte-string helpers -/

/-- `n.to_bytes(2, "little")`. -/
def toBytesLE2 (n : Nat) : List Nat := [n % 256, n / 256 % 256]

/-- `n.to_bytes(4, "little")`. -/
def toBytesLE4 (n : Nat) : List Nat :=
  [n % 256, n / 256 % 256, n / 65536 % 256, n / 16777216 % 256]

/-- `n.to_bytes(2, "big")`. -/
def toBytesBE2 (n : Nat) : List Nat := [n / 256 % 256, n % 256]

/-- Python slice `xs[:i]` where `i` may be negative (counted from the end). -/
def pyTake (xs : List Nat) (i : Int) : List Nat :=
  if 0 ≤ i then xs.take i.toNat else xs.take (xs.length - i.natAbs)

/-- Python slice `xs[i:]` where `i` may be negative (counted from the end). -/
def pyDrop (xs : List Nat) (i : Int) : List Nat :=
  if 0 ≤ i then xs.drop i.toNat else xs.drop (xs.length - i.natAbs)

/-- Apply `f` eight times (one CRC round per bit of a byte). -/
def iter8 (f : Nat → Nat) (x : Nat) : Nat :=
  f (f (f (f (f (f (f (f x)))))))

/-! ## CRC primitives (`common.py`)

`crc16_ccitt`: CRC-16/CCITT-FALSE — width 16, polynomial 0x1021, init 0x0000,
no reflection, no final xor.  `crc16_kermit`: the `CRC_KERMIT` configuration of
the source — polynomial 0x1021, init 0xFFFF, reflected input and output, final
xor 0xFFFF (reflected polynomial 0x8408). -/

/-- One bit-step of the MSB-first CRC-16 with polynomial 0x1021. -/
def ccittStep (crc : Nat) : Nat :=
  if crc / 32768 % 2 = 1 then ((crc * 2) ^^^ 0x1021) % 65536 else crc * 2 % 65536

/-- CRC-16/CCITT-FALSE over a byte string, as `common.crc16_ccitt`. -/
def crc16_ccitt (data : List Nat) : Nat :=
  data.foldl (fun crc b => iter8 ccittStep (crc ^^^ (b % 256 * 256))) 0

/-- One bit-step of the LSB-first CRC-16 with reflected polynomial 0x8408. -/
def kermitStep (crc : Nat) : Nat :=
  if crc % 2 = 1 then (crc / 2) ^^^ 0x8408 else crc / 2

/-- The source's `common.crc16_kermit` (poly 0x1021, init 0xFFFF, reflected,
final xor 0xFFFF). -/
def crc16_kermit (data : List Nat) : Nat :=
  (data.foldl (fun crc b => iter8 kermitStep (crc ^^^ b % 65536)) 0xFFFF) ^^^ 0xFFFF

/-- One bit-step of the reflected CRC-32 (polynomial 0xEDB88320). -/
def crc32Step (crc : Nat) : Nat :=
  if crc % 2 = 1 then (crc / 2) ^^^ 0xEDB88320 else crc / 2

/-- Standard CRC-32 (as Python's `binascii.crc32`), used by the GBL end tag. -/
def crc32 (data : List Nat) : Nat :=
  (data.foldl (fun crc b => iter8 crc32Step (crc ^^^ b % 4294967296)) 0xFFFFFFFF)
    ^^^ 0xFFFFFFFF

/-- `common.pad_to_multiple(data, multiple, padding)` with a single-byte pad. -/
def pad_to_multiple (data : List Nat) (multiple : Nat) (padding : Nat) : List Nat :=
  if data.length % multiple = 0 then data
  else
    data ++ List.replicate (multiple * (data.length / multiple + 1) - data.length) padding

/-- The `while n:` loop of `PackedUInt21.serialize`, with explicit fuel (the
value itself bounds the iteration count, since `n / 128 < n` for `n > 0`). -/
def packedChunksRawAux : Nat → Nat → List Nat
  | 0, _ => []
  | fuel + 1, n => if n = 0 then [] else (n % 128 + 128) :: packedChunksRawAux fuel (n / 128)

/-- The `while n:` loop of `PackedUInt21.serialize`: little-endian 7-bit groups,
each with the continuation bit set (`(n & 0b01111111) | 0b10000000`, written
arithmetically since `n % 128 < 128`). -/
def packedChunksRaw (n : Nat) : List Nat := packedChunksRawAux n n

/-- `chunks[-1] &= 0b01111111`: clear the continuation bit of the last chunk. -/
def stripLastMSB : List Nat → List Nat
  | [] => []
  | [c] => [c % 128]
  | c :: cs => c :: stripLastMSB cs

/-- `PackedUInt21.serialize`.  Returns `none` exactly when the Python code
raises `IndexError`: for `n = 0` the while loop produces no chunks and
`chunks[-1]` fails on the empty list. -/
def packedSerialize (n : Nat) : Option (List Nat) :=
  match packedChunksRaw n with
  | [] => none
  | cs => some (stripLastMSB cs)

/-- Decode errors of the embedded parsers. -/
inductive DecodeErr
  /-- `BufferTooShort` — the incremental parser needs more data. -/
  | bufferTooShort
  /-- `ValueError` (or another fatal parse error) — invalid format. -/
  | valueError
deriving DecidableEq, Repr

/-- The `for byte in data` loop of `PackedUInt21.deserialize`: collect 7-bit
chunks until a byte with a clear continuation bit; more than three chunks is an
error; running out of data ends the loop with the chunks collected so far. -/
def packedScan (chunks : List Nat) : List Nat → Except DecodeErr (List Nat × List Nat)
  | [] => .ok (chunks, [])
  | b :: rest =>
    let chunks' := chunks ++ [b % 128]
    if chunks'.length > 3 then .error .valueError
    else if b / 128 % 2 = 0 then .ok (chunks', rest)
    else packedScan chunks' rest

/-- `PackedUInt21.deserialize`: returns the decoded value and the unconsumed
tail.  The value is rebuilt most-significant-chunk first
(`n = (n << 7) | chunk`, written `128 * n + chunk` since `chunk < 128`). -/
def packedDeserialize (data : List Nat) : Except DecodeErr (Nat × List Nat) := do
  let (chunks, rest) ← packedScan [] data
  return (chunks.reverse.foldl (fun n c => 128 * n + c) 0, rest)

/-- The HDLC special bytes (`HDLCSpecial`): FLAG, ESCAPE, XON, XOFF, VENDOR. -/
def hdlcSpecials : List Nat := [0x7E, 0x7D, 0x11, 0x13, 0xF8]

/-- The escaping loop of `HDLCLiteFrame.serialize`: special bytes become
`0x7D, byte ^ 0x20`. -/
def hdlcEscapeBytes : List Nat → List Nat
  | [] => []
  | b :: bs =>
    if b ∈ hdlcSpecials then 0x7D :: (b ^^^ 0x20) :: hdlcEscapeBytes bs
    else b :: hdlcEscapeBytes bs

/-- `HDLCLiteFrame.serialize`: append the little-endian CRC-16 of the data,
escape, and delimit with FLAG bytes.  The frame is identified with its
unescaped `data` field. -/
def hdlcSerialize (data : List Nat) : List Nat :=
  0x7E :: (hdlcEscapeBytes (data ++ toBytesLE2 (crc16_kermit data)) ++ [0x7E])

/-- The unescaping loop of `HDLCLiteFrame.from_bytes`: FLAG bytes are skipped,
`0x7D` starts an escape, an escaped byte must unescape to a special byte. -/
def hdlcUnescape : Bool → List Nat → List Nat → Except DecodeErr (List Nat)
  | _, acc, [] => .ok acc
  | true, acc, b :: bs =>
    if (b ^^^ 0x20) ∈ hdlcSpecials then hdlcUnescape false (acc ++ [b ^^^ 0x20]) bs
    else .error .valueError
  | false, acc, b :: bs =>
    if b = 0x7D then hdlcUnescape true acc bs
    else if b = 0x7E then hdlcUnescape false acc bs
    else hdlcUnescape false (acc ++ [b]) bs

/-- `HDLCLiteFrame.from_bytes`: unescape, split off the 2-byte CRC
(`unescaped[:-2]` / `unescaped[-2:]`), and validate it. -/
def hdlcFromBytes (data : List Nat) : Except DecodeErr (List Nat) := do
  let u ← hdlcUnescape false [] data
  let d := u.take (u.length - 2)
  let c := u.drop (u.length - 2)
  if toBytesLE2 (crc16_kermit d) = c then return d else .error .valueError

/-- The Spinel header byte: `transaction_id` in the low 4 bits,
`network_link_id` in bits 4–5, `flag` in bits 6–7 (zigpy packs the first
struct field into the least-significant bits). -/
structure SpinelHeader where
  transaction_id : Nat
  network_link_id : Nat
  flag : Nat
deriving DecidableEq, Repr

/-- Serialize a Spinel header to one byte; zigpy range-checks each bitfield. -/
def spinelHeaderSerialize (h : SpinelHeader) : Option (List Nat) :=
  if h.transaction_id < 16 ∧ h.network_link_id < 4 ∧ h.flag < 4 then
    some [h.transaction_id + 16 * h.network_link_id + 64 * h.flag]
  else none

/-- Deserialize a Spinel header byte. -/
def spinelHeaderDeserialize : List Nat → Except DecodeErr (SpinelHeader × List Nat)
  | [] => .error .valueError
  | b :: rest => .ok (⟨b % 16, b / 16 % 4, b / 64 % 4⟩, rest)

/-- The `CommandID` enum's member values: 0–23 (`NOOP` .. `PROP_VALUES_ARE`). -/
def isSpinelCommandId (n : Nat) : Bool := n < 24

/-- `CommandID.deserialize`: packed uint21 decode followed by the enum member
lookup (an unknown value raises `ValueError`). -/
def commandIdDeserialize (data : List Nat) : Except DecodeErr (Nat × List Nat) := do
  let (n, rest) ← packedDeserialize data
  if isSpinelCommandId n then return (n, rest) else .error .valueError

/-- A Spinel frame: header, command id (a `CommandID` member), payload. -/
structure SpinelFrame where
  header : SpinelHeader
  command_id : Nat
  data : List Nat
deriving DecidableEq, Repr

/-- `SpinelFrame.from_bytes`: header byte, flag check (`!= 0b10` is rejected),
packed command id, rest of the payload. -/
def spinelFrameFromBytes (data : List Nat) : Except DecodeErr SpinelFrame := do
  let (header, rest) ← spinelHeaderDeserialize data
  if header.flag ≠ 2 then .error .valueError
  else do
    let (cid, rest2) ← commandIdDeserialize rest
    return ⟨header, cid, rest2⟩

/-- `SpinelFrame.serialize`: header byte, packed command id, data.  `none`
models the exceptions of the underlying serializers (header field out of
range, or the packed-uint21 `IndexError` on zero). -/
def spinelFrameSerialize (f : SpinelFrame) : Option (List Nat) := do
  let hb ← spinelHeaderSerialize f.header
  let cb ← packedSerialize f.command_id
  return hb ++ cb ++ f.data

/-- A Spinel frame the encoder accepts and the decoder recognizes: in-range
header fields with flag `0b10`, and a nonzero `CommandID` member. -/
def SpinelFrameValid (f : SpinelFrame) : Prop :=
  f.header.transaction_id < 16 ∧ f.header.network_link_id < 4 ∧ f.header.flag = 2 ∧
    0 < f.command_id ∧ f.command_id < 24

instance (f : SpinelFrame) : Decidable (SpinelFrameValid f) := by
  unfold SpinelFrameValid; infer_instance

/-- Modelled from the spec: the CPC FLAG byte (0x14). -/
def cpcFLAG : Nat := 0x14

/-- Modelled from the spec: the unnumbered-frame command ids.  The spec does
not give their numeric values; the embedding fixes an arbitrary injective
byte assignment, which is all the claims depend on. -/
inductive CpcCommandId
  | propValueGet
  | propValueSet
  | propValueIs
  | reset
deriving DecidableEq, Repr

/-- One-byte encoding of a `CpcCommandId` (an injective assignment). -/
def CpcCommandId.toByte : CpcCommandId → Nat
  | .propValueGet => 2
  | .propValueSet => 3
  | .propValueIs => 6
  | .reset => 1

/-- Enum lookup for a command-id byte; unknown values are a parse error. -/
def cpcCommandIdFromByte (b : Nat) : Option CpcCommandId :=
  if b = 2 then some .propValueGet
  else if b = 3 then some .propValueSet
  else if b = 6 then some .propValueIs
  else if b = 1 then some .reset
  else none

/-- Modelled from the spec: a property id serializes in the packed-integer
format; zero canonically encodes as the single octet 0x00. -/
def packedSerializeSpec (n : Nat) : List Nat :=
  if n = 0 then [0] else stripLastMSB (packedChunksRaw n)

/-- The payload of an unnumbered frame (class `Command` and its subclasses
`PropertyCommand` / `ResetCommand` of `cpc.py`). -/
inductive CpcCommand
  /-- `PropertyCommand(property_id, value)`. -/
  | property (property_id : Nat) (value : List Nat)
  /-- `ResetCommand(status)` — `status` is `None` in a request. -/
  | reset (status : Option Nat)
deriving DecidableEq, Repr

/-- `PropertyCommand.to_bytes` / `ResetCommand.to_bytes`. -/
def cpcCommandToBytes : CpcCommand → List Nat
  | .property pid value => packedSerializeSpec pid ++ value
  | .reset none => []
  | .reset (some s) => [s]

/-- `PropertyCommand.from_bytes` / `ResetCommand.from_bytes`, selected by the
command id (`UnnumberedFrame._COMMANDS`). -/
def cpcCommandFromBytes (cmd : CpcCommandId) (data : List Nat) :
    Except DecodeErr CpcCommand :=
  match cmd with
  | .reset =>
    match data with
    | [] => .ok (.reset none)
    | s :: rest => if rest = [] then .ok (.reset (some s)) else .error .valueError
  | _ => do
    let (pid, rest) ← packedDeserialize data
    return .property pid rest

/-- An unnumbered CPC frame (`cpc.UnnumberedFrame`). -/
structure CpcUnnumberedFrame where
  command_id : CpcCommandId
  command_seq : Nat
  payload : CpcCommand
deriving DecidableEq, Repr

/-- `UnnumberedFrame.to_bytes`: command id, sequence, 16-bit LE payload
length, payload.  `none` models zigpy's range checks (`uint8_t` sequence,
`uint16_t` length). -/
def cpcUnnumberedToBytes (f : CpcUnnumberedFrame) : Option (List Nat) :=
  let payload := cpcCommandToBytes f.payload
  if f.command_seq < 256 ∧ payload.length < 65536 then
    some (f.command_id.toByte :: f.command_seq :: (toBytesLE2 payload.length ++ payload))
  else none

/-- `UnnumberedFrame.from_bytes`: command id, sequence, length, payload of
exactly that length (a short frame or trailing bytes raise `ValueError`),
then the command-specific payload parse. -/
def cpcUnnumberedFromBytes (data : List Nat) : Except DecodeErr CpcUnnumberedFrame :=
  match data with
  | cb :: seq :: l0 :: l1 :: rest =>
    match cpcCommandIdFromByte cb with
    | none => .error .valueError
    | some cmd =>
      let length := l0 + 256 * l1
      if rest.length < length then .error .valueError
      else if rest.drop length ≠ [] then .error .valueError
      else do
        let pl ← cpcCommandFromBytes cmd (rest.take length)
        return ⟨cmd, seq, pl⟩
  | _ => .error .valueError

/-- A CPC transport frame (`cpc.CPCTransportFrame`), with its payload in the
parsed form used by the client (an unnumbered frame). -/
structure CpcTransportFrame where
  endpoint : Nat
  control : Nat
  payload : CpcUnnumberedFrame
deriving DecidableEq, Repr

/-- `CPCTransportFrame.frame_type`: bits 7–6 of the control byte, with 0
treated as 1 (IFRAME).  UNNUMBERED is 3. -/
def frameTypeOfControl (control : Nat) : Nat :=
  let ft := control / 64 % 4
  if ft = 0 then 1 else ft

/-- `CPCTransportFrame.serialize`: flag, endpoint, 16-bit LE length
(payload + 2), control, little-endian CRC-16/CCITT of the five header bytes,
payload, little-endian CRC-16/CCITT of the payload. -/
def cpcTransportSerialize (f : CpcTransportFrame) : Option (List Nat) := do
  let payload ← cpcUnnumberedToBytes f.payload
  if f.endpoint < 256 ∧ f.control < 256 ∧ payload.length + 2 < 65536 then
    let header := [cpcFLAG, f.endpoint] ++ toBytesLE2 (payload.length + 2) ++ [f.control]
    some (header ++ toBytesLE2 (crc16_ccitt header) ++ payload ++
      toBytesLE2 (crc16_ccitt payload))
  else none

/-- `CPCTransportFrame.deserialize` (including the `parse_subframe` step):
header of seven bytes, flag and header-CRC validation, payload of
`length - 2` bytes (a Python slice: negative lengths index from the end),
payload-CRC validation, and the unnumbered sub-frame parse.  Returns the
frame and the unconsumed tail. -/
def cpcTransportDeserialize (data : List Nat) :
    Except DecodeErr (CpcTransportFrame × List Nat) :=
  match data with
  | f :: e :: l0 :: l1 :: c :: h0 :: h1 :: rest =>
    let length := l0 + 256 * l1
    if f ≠ cpcFLAG then .error .valueError
    else if crc16_ccitt [f, e, l0, l1, c] ≠ h0 + 256 * h1 then .error .valueError
    else if rest.length < length then .error .bufferTooShort
    else
      let payload := pyTake rest ((length : Int) - 2)
      match pyDrop rest ((length : Int) - 2) with
      | p0 :: p1 :: rest3 =>
        if crc16_ccitt payload ≠ p0 + 256 * p1 then .error .valueError
        else if frameTypeOfControl c ≠ 3 then .error .valueError
        else do
          let uf ← cpcUnnumberedFromBytes payload
          return (⟨e, c, uf⟩, rest3)
      | _ => .error .valueError
  | _ => .error .bufferTooShort

/-- The command payload matches the command id (as `UnnumberedFrame._COMMANDS`
dispatches), with the Python-value bounds: property ids fit 21 bits, bytes
fit 8 bits. -/
def CpcCommandMatches : CpcCommandId → CpcCommand → Prop
  | .propValueGet, .property pid value => pid < 2097152 ∧ ∀ b ∈ value, b < 256
  | .propValueSet, .property pid value => pid < 2097152 ∧ ∀ b ∈ value, b < 256
  | .propValueIs, .property pid value => pid < 2097152 ∧ ∀ b ∈ value, b < 256
  | .reset, .reset none => True
  | .reset, .reset (some s) => s < 256
  | _, _ => False

instance (c : CpcCommandId) (p : CpcCommand) : Decidable (CpcCommandMatches c p) := by
  cases c <;> cases p <;> first
    | exact (inferInstance : Decidable True)
    | exact (inferInstance : Decidable False)
    | (unfold CpcCommandMatches; infer_instance)
    | (rename_i s; cases s <;> (unfold CpcCommandMatches; infer_instance))

/-- A valid unnumbered frame: byte-sized sequence, 16-bit payload length,
payload matching the command id. -/
def CpcUnnumberedValid (f : CpcUnnumberedFrame) : Prop :=
  f.command_seq < 256 ∧ (cpcCommandToBytes f.payload).length < 65536 ∧
    CpcCommandMatches f.command_id f.payload

instance (f : CpcUnnumberedFrame) : Decidable (CpcUnnumberedValid f) := by
  unfold CpcUnnumberedValid; infer_instance

/-- A valid CPC transport frame: byte-sized endpoint and control with
UNNUMBERED frame type, a valid unnumbered payload whose encoding leaves the
length field (payload + 2) within 16 bits. -/
def CpcTransportValid (f : CpcTransportFrame) : Prop :=
  f.endpoint < 256 ∧ f.control < 256 ∧ frameTypeOfControl f.control = 3 ∧
    CpcUnnumberedValid f.payload ∧
    (cpcCommandToBytes f.payload.payload).length + 6 < 65536

instance (f : CpcTransportFrame) : Decidable (CpcTransportValid f) := by
  unfold CpcTransportValid; infer_instance

/-- The resync assignment
`self._buffer = self._buffer[self._buffer.find(bytes([FLAG])):]` of
`CPCProtocol.data_received`.  Python's `find` returns the index of the first
occurrence of the flag byte, or `-1` when absent — and a `[-1:]` slice keeps
the last byte of the buffer. -/
def cpcResync (buffer : List Nat) : List Nat :=
  match buffer.findIdx? (fun b => b = cpcFLAG) with
  | some i => buffer.drop i
  | none => buffer.drop (buffer.length - 1)

/-- One iteration of the `while self._buffer:` loop of
`CPCProtocol.data_received`: `halt` when the loop exits (empty buffer or
`BufferTooShort`), otherwise the next buffer and the frame delivered to
`frame_received`, if any. -/
inductive CpcLoopStep
  | halt (buffer : List Nat)
  | next (buffer : List Nat) (frame : Option CpcTransportFrame)
deriving DecidableEq, Repr

/-- One iteration of the decode loop of `CPCProtocol.data_received`. -/
def cpcDataReceivedStep (buffer : List Nat) : CpcLoopStep :=
  if buffer = [] then .halt buffer
  else
    match cpcTransportDeserialize buffer with
    | .ok (frame, rest) => .next rest (some frame)
    | .error .bufferTooShort => .halt buffer
    | .error .valueError => .next (cpcResync buffer) none

/-- The decode loop of `CPCProtocol.data_received`, run with explicit fuel.
Returns the final buffer and the frames delivered, or `none` if the loop does
not finish within `fuel` iterations. -/
def cpcDataReceivedLoop : Nat → List Nat → Option (List Nat × List CpcTransportFrame)
  | 0, _ => none
  | fuel + 1, buffer =>
    match cpcDataReceivedStep buffer with
    | .halt b => some (b, [])
    | .next b none => cpcDataReceivedLoop fuel b
    | .next b (some frame) =>
      (cpcDataReceivedLoop fuel b).map fun r => (r.1, frame :: r.2)

/-! ## GBL / EBL tag streams (`firmware.py`, classes `GBLImage` / `EBLImage`)

The serializers below translate `GBLImage.serialize` / `EBLImage.serialize`.
The parsers (`parse_silabs_gbl` / `parse_silabs_ebl`) live in the external
zigpy package, not in this source tree; they are modelled from the spec:
the parser iterates `(tag, length, value)` records, validates that HEADER is
first and END last with only alignment padding (`0xFF`) after it, and that
the final four bytes of END's value equal the CRC-32 over all preceding
bytes of the serialized file (stored little-endian). -/

/-- `GBLTagId.HEADER`. -/
def gblTagHEADER : Nat := 0x03A617EB

/-- `GBLTagId.END`. -/
def gblTagEND : Nat := 0xFC0404FC

/-- `EBLTagId.HEADER` (byte-swapped constants as in the source enum; the
little-endian serialization of these values yields the big-endian wire tag). -/
def eblTagHEADER : Nat := 0x0000

/-- `EBLTagId.END`. -/
def eblTagEND : Nat := 0x04FC

/-- One serialized GBL record: 32-bit LE tag, 32-bit LE length, value. -/
def gblChunk (p : Nat × List Nat) : List Nat :=
  toBytesLE4 p.1 ++ toBytesLE4 p.2.length ++ p.2

/-- `GBLImage.serialize`: concatenated records padded to a multiple of 4 with
`0xFF`.  `none` models the range errors of `tag_id.serialize()` and
`len(value).to_bytes(4, "little")`. -/
def gblSerialize (tags : List (Nat × List Nat)) : Option (List Nat) := do
  let chunks ← tags.mapM fun p =>
    if p.1 < 4294967296 ∧ p.2.length < 4294967296 then some (gblChunk p) else none
  return pad_to_multiple chunks.flatten 4 0xFF

/-- One serialized EBL record: 16-bit LE (byte-swapped) tag, 16-bit BE length,
value. -/
def eblChunk (p : Nat × List Nat) : List Nat :=
  toBytesLE2 p.1 ++ toBytesBE2 p.2.length ++ p.2

/-- `EBLImage.serialize`: concatenated records padded to a multiple of 64 with
`0xFF`. -/
def eblSerialize (tags : List (Nat × List Nat)) : Option (List Nat) := do
  let chunks ← tags.mapM fun p =>
    if p.1 < 65536 ∧ p.2.length < 65536 then some (eblChunk p) else none
  return pad_to_multiple chunks.flatten 64 0xFF

/-- Modelled from the spec: the record loop of the GBL parser.  `seen` holds
the file bytes already consumed (needed for the END CRC-32 check, which
covers all bytes of the file preceding the stored CRC). -/
def gblReadRecords (seen : List Nat) : List Nat → Except DecodeErr (List (Nat × List Nat))
  | t0 :: t1 :: t2 :: t3 :: l0 :: l1 :: l2 :: l3 :: rest =>
    let tag := t0 + 256 * t1 + 65536 * t2 + 16777216 * t3
    let len := l0 + 256 * l1 + 65536 * l2 + 16777216 * l3
    if rest.length < len then .error .valueError
    else
      let value := rest.take len
      if tag = gblTagEND then
        if (∀ b ∈ rest.drop len, b = 0xFF) ∧ (rest.drop len).length < 4 ∧
            4 ≤ len ∧
            value.drop (len - 4) =
              toBytesLE4 (crc32 (seen ++ [t0, t1, t2, t3, l0, l1, l2, l3] ++
                value.take (len - 4))) then
          .ok [(tag, value)]
        else .error .valueError
      else
        (gblReadRecords (seen ++ [t0, t1, t2, t3, l0, l1, l2, l3] ++ value)
            (rest.drop len)).map
          fun tags => (tag, value) :: tags
  | _ => .error .valueError
termination_by data => data.length
decreasing_by simp; omega

/-- Modelled from the spec: `parse_silabs_gbl` followed by the `GBLImage`
wrapper — all records with HEADER validated first. -/
def gblParse (data : List Nat) : Except DecodeErr (List (Nat × List Nat)) := do
  let tags ← gblReadRecords [] data
  match tags.head? with
  | some p => if p.1 = gblTagHEADER then return tags else .error .valueError
  | none => .error .valueError

/-- Modelled from the spec: the record loop of the EBL parser (16-bit fields,
64-byte alignment padding). -/
def eblReadRecords (seen : List Nat) : List Nat → Except DecodeErr (List (Nat × List Nat))
  | t0 :: t1 :: l0 :: l1 :: rest =>
    let tag := t0 + 256 * t1
    let len := 256 * l0 + l1
    if rest.length < len then .error .valueError
    else
      let value := rest.take len
      if tag = eblTagEND then
        if (∀ b ∈ rest.drop len, b = 0xFF) ∧ (rest.drop len).length < 64 ∧
            4 ≤ len ∧
            value.drop (len - 4) =
              toBytesLE4 (crc32 (seen ++ [t0, t1, l0, l1] ++
                value.take (len - 4))) then
          .ok [(tag, value)]
        else .error .valueError
      else
        (eblReadRecords (seen ++ [t0, t1, l0, l1] ++ value) (rest.drop len)).map
          fun tags => (tag, value) :: tags
  | _ => .error .valueError
termination_by data => data.length
decreasing_by simp; omega

/-- Modelled from the spec: `parse_silabs_ebl` followed by the `EBLImage`
wrapper. -/
def eblParse (data : List Nat) : Except DecodeErr (List (Nat × List Nat)) := do
  let tags ← eblReadRecords [] data
  match tags.head? with
  | some p => if p.1 = eblTagHEADER then return tags else .error .valueError
  | none => .error .valueError

/-- A valid GBL image value: a HEADER-first, END-last tag list with no
intermediate END, in-range tags and lengths, byte-valued contents, and an END
value whose final four bytes are the little-endian CRC-32 of all preceding
serialized bytes. -/
def GblValid (tags : List (Nat × List Nat)) : Prop :=
  tags ≠ [] ∧
  (tags.getLastD (0, [])).1 = gblTagEND ∧
  (tags.headD (0, [])).1 = gblTagHEADER ∧
  (∀ p ∈ tags.dropLast, p.1 ≠ gblTagEND) ∧
  (∀ p ∈ tags, p.1 < 4294967296 ∧ p.2.length < 4294967296 ∧ ∀ b ∈ p.2, b < 256) ∧
  4 ≤ (tags.getLastD (0, [])).2.length ∧
  (tags.getLastD (0, [])).2.drop ((tags.getLastD (0, [])).2.length - 4) =
    toBytesLE4 (crc32 ((tags.dropLast.map gblChunk).flatten ++
      toBytesLE4 gblTagEND ++ toBytesLE4 (tags.getLastD (0, [])).2.length ++
      (tags.getLastD (0, [])).2.take ((tags.getLastD (0, [])).2.length - 4)))

instance (tags : List (Nat × List Nat)) : Decidable (GblValid tags) := by
  unfold GblValid
  infer_instance

/-- A valid EBL image value: HEADER-first, END-last, no intermediate END,
16-bit tags and lengths, byte-valued contents, and the END CRC-32. -/
def EblValid (tags : List (Nat × List Nat)) : Prop :=
  tags ≠ [] ∧
  (tags.getLastD (0, [])).1 = eblTagEND ∧
  (tags.headD (0, [])).1 = eblTagHEADER ∧
  (∀ p ∈ tags.dropLast, p.1 ≠ eblTagEND) ∧
  (∀ p ∈ tags, p.1 < 65536 ∧ p.2.length < 65536 ∧ ∀ b ∈ p.2, b < 256) ∧
  4 ≤ (tags.getLastD (0, [])).2.length ∧
  (tags.getLastD (0, [])).2.drop ((tags.getLastD (0, [])).2.length - 4) =
    toBytesLE4 (crc32 ((tags.dropLast.map eblChunk).flatten ++
      toBytesLE2 eblTagEND ++ toBytesBE2 (tags.getLastD (0, [])).2.length ++
      (tags.getLastD (0, [])).2.take ((tags.getLastD (0, [])).2.length - 4)))

instance (tags : List (Nat × List Nat)) : Decidable (EblValid tags) := by
  unfold EblValid
  infer_instance

/-- `PacketType.SOH`. -/
def xSOH : Nat := 0x01

/-- `PacketType.EOT`. -/
def xEOT : Nat := 0x04

/-- `PacketType.CAN`. -/
def xCAN : Nat := 0x18

/-- `PacketType.ACK`. -/
def xACK : Nat := 0x06

/-- `PacketType.NAK`. -/
def xNAK : Nat := 0x15

/-- `XmodemCRCPacket.serialize`: SOH, block number, its complement
(`0xFF - number`), the 128-byte payload, and the big-endian CRC-16/CCITT of
the payload.  `none` models the length assertion (and the byte range of
`number`). -/
def xmodemPacketSerialize (number : Nat) (payload : List Nat) : Option (List Nat) :=
  if payload.length = 128 ∧ number < 256 then
    some ([xSOH, number, 0xFF - number] ++ payload ++ toBytesBE2 (crc16_ccitt payload))
  else none

/-- Outcomes of the embedded XMODEM functions. -/
inductive XmodemOutcome
  /-- The call returned normally. -/
  | ok
  /-- `ValueError` after `max_failures` consecutive NAKs. -/
  | tooManyFailures
  /-- `ReceiverCancelled` (a CAN response). -/
  | receiverCancelled
  /-- `ValueError` for a response which is not ACK, NAK or CAN. -/
  | framingError
  /-- The response read timed out (no scripted response left). -/
  | starved
  /-- `ValueError` for data not a multiple of the block size. -/
  | invalidArgument
  /-- `AssertionError` from packet serialization (never reached on valid data). -/
  | assertionFailed
deriving DecidableEq, Repr

/-- `send_xmodem128_crc_data` as a function of the receiver's response script:
write the block, read one response; ACK succeeds, NAK retries the same block
while failures remain, CAN cancels, anything else is a framing error.
`failuresLeft` is `max_failures - attempt` of the source loop.  Returns the
transmissions written, the unconsumed script, and the outcome. -/
def sendDataLoop (data : List Nat) :
    Nat → List Nat → List (List Nat) × List Nat × XmodemOutcome
  | _, [] => ([data], [], .starved)
  | failuresLeft, r :: rs =>
    if r = xACK then ([data], rs, .ok)
    else if r = xNAK then
      match failuresLeft with
      | 0 => ([data], rs, .tooManyFailures)
      | fl + 1 =>
        let w := sendDataLoop data fl rs
        (data :: w.1, w.2)
    else if r = xCAN then ([data], rs, .receiverCancelled)
    else ([data], rs, .framingError)

/-- The per-block loop of `send_xmodem128_crc`, over the list of block
indices; each block delegates to `sendDataLoop` and threads the remaining
script.  Returns transmissions, progress calls, remaining script, outcome. -/
def sendBlocksLoop (data : List Nat) (total mf : Nat) :
    List Nat → List Nat →
      List (List Nat) × List (Nat × Nat) × List Nat × XmodemOutcome
  | [], script => ([], [], script, .ok)
  | i :: is, script =>
    match xmodemPacketSerialize ((i + 1) % 256) ((data.drop (128 * i)).take 128) with
    | none => ([], [], script, .assertionFailed)
    | some pkt =>
      let r := sendDataLoop pkt mf script
      match r.2.2 with
      | .ok =>
        let rest := sendBlocksLoop data total mf is r.2.1
        (r.1 ++ rest.1, (128 * (i + 1), total) :: rest.2.1, rest.2.2)
      | o => (r.1, [], r.2.1, o)

/-- `send_xmodem128_crc` as a function of the response script (the receiver's
bytes after its initial `C`): reject data not a multiple of 128 before
anything is sent, report progress `(0, total)` once, send every 128-byte
block with number `(index + 1) % 256` reporting progress after each, then
send a single EOT under the same response policy. -/
def send_xmodem128_crc (data : List Nat) (mf : Nat) (script : List Nat) :
    List (List Nat) × List (Nat × Nat) × XmodemOutcome :=
  if data.length % 128 ≠ 0 then ([], [], .invalidArgument)
  else
    let r := sendBlocksLoop data data.length mf (List.range (data.length / 128)) script
    match r.2.2.2 with
    | .ok =>
      let re := sendDataLoop [xEOT] mf r.2.2.1
      (r.1 ++ re.1, (0, data.length) :: r.2.1, re.2.2)
    | o => (r.1, (0, data.length) :: r.2.1, o)

/-- The serialized XMODEM packet for block index `i` of `data`. -/
def xmodemBlockBytes (data : List Nat) (i : Nat) : List Nat :=
  [xSOH, (i + 1) % 256, 0xFF - (i + 1) % 256] ++ (data.drop (128 * i)).take 128 ++
    toBytesBE2 (crc16_ccitt ((data.drop (128 * i)).take 128))

/-- One parsed version component. -/
inductive VersionComponent
  /-- `comparable=True`, integer data. -/
  | num (n : Nat)
  /-- `comparable=False`, the piece itself. -/
  | str (s : List Char)
deriving DecidableEq, Repr

/-- The single-character separators. -/
def isSepChar (c : Char) : Bool :=
  c = '.' ∨ c = '-' ∨ c = '/' ∨ c = '_'

/-- The multi-character separator token. -/
def buildSep : List Char := [' ', 'b', 'u', 'i', 'l', 'd', ' ']

/-- `re.split` over the separator regex, keeping the separators: `cur` is the
current piece accumulated in reverse.  The `" build "` alternative is matched
by the literal pattern. -/
def splitSeps (cur : List Char) : List Char → List (List Char)
  | [] => [cur.reverse]
  | ' ' :: 'b' :: 'u' :: 'i' :: 'l' :: 'd' :: ' ' :: cs =>
    cur.reverse :: buildSep :: splitSeps [] cs
  | c :: cs =>
    if isSepChar c then
      cur.reverse :: [c] :: splitSeps [] cs
    else
      splitSeps (c :: cur) cs

/-- `int(component)` for an all-digit piece. -/
def toNatDigits (s : List Char) : Nat :=
  s.foldl (fun acc c => 10 * acc + (c.toNat - 48)) 0

/-- `component.isdigit()` followed by the constructor choice of
`Version.__init__` (ASCII digits, as in the version strings the tool sees). -/
def parseComponent (s : List Char) : VersionComponent :=
  if s ≠ [] ∧ s.all Char.isDigit then .num (toNatDigits s) else .str s

/-- `Version(version)`: split on the separators and classify each piece. -/
def Version.parse (s : String) : List VersionComponent :=
  (splitSeps [] s.toList).map parseComponent

/-- `Version.comparable_components()` (the integer data only; the components
are `(comparable=True, int)` pairs, so tuple comparison on them is integer
comparison). -/
def comparableComponents (v : List VersionComponent) : List Nat :=
  v.filterMap fun c =>
    match c with
    | .num n => some n
    | .str _ => none

/-- `Version.compatible_with`: the shared prefix of comparable components is
equal. -/
def compatible_with (a b : List VersionComponent) : Bool :=
  let A := comparableComponents a
  let B := comparableComponents b
  A.take (min A.length B.length) == B.take (min A.length B.length)

/-- Python tuple `<` on integer tuples: lexicographic, a strict prefix is
smaller. -/
def natListLt : List Nat → List Nat → Bool
  | [], [] => false
  | [], _ :: _ => true
  | _ :: _, [] => false
  | a :: as, b :: bs =>
    if a < b then true else if b < a then false else natListLt as bs

/-- `Version.__lt__`: compare only the comparable components. -/
def versionLt (a b : List VersionComponent) : Bool :=
  natListLt (comparableComponents a) (comparableComponents b)

/-- `common.put_first(lst, elements)`: the provided elements, then the
remaining members of `lst` in their original order. -/
def put_first {α : Type} [DecidableEq α] (lst elements : List α) : List α :=
  elements ++ lst.filter (fun e => e ∉ elements)

/-- `const.ApplicationType`. -/
inductive ApplicationType
  | gecko_bootloader
  | cpc
  | ezsp
  | spinel
deriving DecidableEq, Repr

/-- `const.FirmwareImageType`. -/
inductive FirmwareImageType
  | zigbee_ncp
  | openthread_rcp
  | zwave_ncp
  | bootloader
  | multipan
  | unknown
deriving DecidableEq, Repr

/-- `const.FW_IMAGE_TYPE_TO_APPLICATION_TYPE` (a partial map). -/
def FW_IMAGE_TYPE_TO_APPLICATION_TYPE : FirmwareImageType → Option ApplicationType
  | .zigbee_ncp => some .ezsp
  | .multipan => some .cpc
  | .openthread_rcp => some .spinel
  | .bootloader => some .gecko_bootloader
  | _ => none

/-- The default probe order of the flasher (`FlashConfig`/`Flasher`):
BOOTLOADER, CPC, EZSP, SPINEL. -/
def defaultProbeMethods : List ApplicationType :=
  [.gecko_bootloader, .cpc, .ezsp, .spinel]

/-! ## Gecko bootloader client (`gecko_bootloader.py`)

For claim C8 the embedding needs the `WAITING_FOR_MENU` branch of
`data_received` (menu detection via `MENU_REGEX`) and `run_firmware`. -/

/-- The states of the bootloader menu state machine. -/
inductive GeckoState
  | waitingForMenu
  | inMenu
  | waitingXmodemReady
  | xmodemReady
  | waitingUploadDone
  | uploadDone
deriving DecidableEq, Repr

/-- A regex `\w` byte: ASCII letter, digit or underscore. -/
def isWordByte (b : Nat) : Bool :=
  (48 ≤ b ∧ b ≤ 57) ∨ (65 ≤ b ∧ b ≤ 90) ∨ (97 ≤ b ∧ b ≤ 122) ∨ b = 95

/-- Bytes of an ASCII string. -/
def strBytes (s : String) : List Nat := s.toList.map Char.toNat

/-- Whether `p` is an initial run of `l`. -/
def listStartsWith (p l : List Nat) : Bool := l.take p.length == p

/-- The fixed menu text after the version capture, with the `gbl` upload
alternative of `MENU_REGEX`. -/
def menuTailGbl : List Nat :=
  strBytes "\r\n1. upload gbl\r\n2. run\r\n3. ebl info\r\nBL > "

/-- The fixed menu text after the version capture, `ebl` alternative. -/
def menuTailEbl : List Nat :=
  strBytes "\r\n1. upload ebl\r\n2. run\r\n3. ebl info\r\nBL > "

/-- The lazy `(?P<version>.*?)` of `MENU_REGEX` followed by the fixed menu
text: scan forward over non-`\n` bytes until the menu tail matches. -/
def menuVersionScan : List Nat → Bool
  | [] => false
  | b :: rest =>
    if listStartsWith menuTailGbl (b :: rest) ∨ listStartsWith menuTailEbl (b :: rest)
    then true
    else if b = 10 then false
    else menuVersionScan rest

/-- A `MENU_REGEX` match starting exactly at the head of `l`:
`\r\n`, then the bootloader type (`Gecko` or `\w+ Serial` — `\w+` is the
maximal word run, since a space cannot extend it), then
`" Bootloader v"`, the lazily-captured version and the fixed menu text. -/
def menuMatchAt (l : List Nat) : Bool :=
  listStartsWith (strBytes "\r\n") l &&
    (let l2 := l.drop 2
     (listStartsWith (strBytes "Gecko Bootloader v") l2 &&
        menuVersionScan (l2.drop 18)) ||
     (let w := l2.takeWhile isWordByte
      (!w.isEmpty) &&
        listStartsWith (strBytes " Serial Bootloader v") (l2.drop w.length) &&
        menuVersionScan (l2.drop (w.length + 20))))

/-- `MENU_REGEX.search(buffer) is not None`: a match at some position. -/
def menuSearch : List Nat → Bool
  | [] => menuMatchAt []
  | b :: rest => menuMatchAt (b :: rest) || menuSearch rest

/-- One `data_received` call of `GeckoBootloaderProtocol`, restricted to the
states claim C8 exercises: in `WAITING_FOR_MENU` a menu match drains the
buffer and enters `IN_MENU`; in any other state the bytes only accumulate. -/
def geckoDataReceived (state : GeckoState) (buffer chunk : List Nat) :
    GeckoState × List Nat :=
  let buf := buffer ++ chunk
  match state with
  | .waitingForMenu =>
    if buf = [] then (state, buf)
    else if menuSearch buf then (.inMenu, []) else (state, buf)
  | s => (s, buf)

/-- Deliver a sequence of data chunks. -/
def geckoFeedAll (st : GeckoState × List Nat) (chunks : List (List Nat)) :
    GeckoState × List Nat :=
  chunks.foldl (fun s c => geckoDataReceived s.1 s.2 c) st

/-- Result of `run_firmware`. -/
inductive RunFirmwareOutcome
  /-- The 100 ms window elapsed without menu re-entry: success. -/
  | ok
  /-- The menu re-appeared within the window: `NoFirmwareError`. -/
  | noFirmware
deriving DecidableEq, Repr

/-- What a `run_firmware` call does after its initial
`wait_for_state(IN_MENU)` returns: set the state to `WAITING_FOR_MENU`, send
the single byte `'2'`, then wait `RUN_APPLICATION_DELAY` for `IN_MENU`;
`chunks` are the data chunks the device delivers within that window
(the buffer is empty on entry — reaching `IN_MENU` drained it). -/
structure RunFirmwareRun where
  stateSetBeforeSend : GeckoState
  sent : List (List Nat)
  outcome : RunFirmwareOutcome
deriving DecidableEq, Repr

/-- `GeckoBootloaderProtocol.run_firmware`, as a function of the start state
and the bytes delivered within the `RUN_APPLICATION_DELAY` window.  `none`
models the initial `wait_for_state(IN_MENU)` suspending (never returning
within the call) when the machine is not in the menu. -/
def run_firmware (startState : GeckoState) (chunks : List (List Nat)) :
    Option RunFirmwareRun :=
  if startState ≠ .inMenu then none
  else
    some
      { stateSetBeforeSend := .waitingForMenu
        sent := [strBytes "2"]
        outcome :=
          if (geckoFeedAll (.waitingForMenu, []) chunks).1 = .inMenu then
            .noFirmware
          else .ok }

/-! ## NabuCasa metadata (`firmware.py`, `NabuCasaMetadata.from_json`, and
`const.LEGACY_FIRMWARE_TYPE_REMAPPING`)

The JSON object is modelled by its schema fields (string-valued version and
type fields, integer metadata version and baudrate); `none` is an absent key
or JSON `null` — both make `obj.pop(key, None)` falsy.  A Python value
assigned by the walrus-guarded blocks can be `None`, a parsed value, or the
falsy popped value itself (the empty string), which the source passes through
unchanged; `PySlot` captures those three cases. -/

/-- `const.LEGACY_FIRMWARE_TYPE_REMAPPING`. -/
def LEGACY_FIRMWARE_TYPE_REMAPPING (s : String) : Option FirmwareImageType :=
  if s = "ncp-uart-hw" then some .zigbee_ncp
  else if s = "ncp-uart-sw" then some .zigbee_ncp
  else if s = "rcp-uart-802154" then some .multipan
  else if s = "ot-rcp" then some .openthread_rcp
  else if s = "z-wave" then some .zwave_ncp
  else if s = "gecko-bootloader" then some .bootloader
  else none

/-- The `FirmwareImageType(value)` enum constructor: `none` is the
`ValueError` for an unknown value. -/
def firmwareImageTypeOfString (s : String) : Option FirmwareImageType :=
  if s = "zigbee_ncp" then some .zigbee_ncp
  else if s = "openthread_rcp" then some .openthread_rcp
  else if s = "zwave_ncp" then some .zwave_ncp
  else if s = "bootloader" then some .bootloader
  else if s = "multipan" then some .multipan
  else if s = "unknown" then some .unknown
  else none

/-- A version-field slot: `None`, a parsed `Version`, or a falsy string
passed through unparsed. -/
inductive VersionSlot
  | pyNone
  | version (v : List VersionComponent)
  | rawStr (s : String)
deriving DecidableEq, Repr

/-- The fw_type slot: `None`, an enum member, or a falsy string passed
through. -/
inductive FwTypeSlot
  | pyNone
  | enum (t : FirmwareImageType)
  | rawStr (s : String)
deriving DecidableEq, Repr

/-- `if v := obj.pop(key, None): v = Version(v)` for a version field. -/
def parseVersionField : Option String → VersionSlot
  | none => .pyNone
  | some s => if s = "" then .rawStr s else .version (Version.parse s)

/-- The fw_type block of `from_json`: legacy remapping, then the enum lookup
with `ValueError` mapped to `None` (after a warning). -/
def parseFwTypeField : Option String → FwTypeSlot
  | none => .pyNone
  | some s =>
    if s = "" then .rawStr s
    else
      match LEGACY_FIRMWARE_TYPE_REMAPPING s with
      | some t => .enum t
      | none =>
        match firmwareImageTypeOfString s with
        | some t => .enum t
        | none => .pyNone

/-- The JSON object given to `from_json`, restricted to the schema fields. -/
structure MetadataJson where
  metadata_version : Option Int
  sdk_version : Option String
  ezsp_version : Option String
  ot_rcp_version : Option String
  cpc_version : Option String
  fw_type : Option String
  fw_variant : Option String
  baudrate : Option Int
deriving DecidableEq, Repr

/-- `NabuCasaMetadata` (the `original_json` copy is the input object). -/
structure NabuCasaMetadata where
  metadata_version : Int
  sdk_version : VersionSlot
  ezsp_version : VersionSlot
  ot_rcp_version : VersionSlot
  cpc_version : VersionSlot
  fw_type : FwTypeSlot
  fw_variant : Option String
  baudrate : Option Int
deriving DecidableEq, Repr

/-- `NABUCASA_METADATA_VERSION`. -/
def NABUCASA_METADATA_VERSION : Int := 2

/-- `NabuCasaMetadata.from_json`: a missing `metadata_version` raises
`KeyError`, a version above the supported one raises `ValueError`; every
other field parses as its block prescribes (the `fw_variant` block is the
identity on the popped value). -/
def NabuCasaMetadata.from_json (obj : MetadataJson) :
    Except String NabuCasaMetadata :=
  match obj.metadata_version with
  | none => .error "KeyError"
  | some mv =>
    if mv > NABUCASA_METADATA_VERSION then .error "Unknown metadata version"
    else
      .ok
        { metadata_version := mv
          sdk_version := parseVersionField obj.sdk_version
          ezsp_version := parseVersionField obj.ezsp_version
          ot_rcp_version := parseVersionField obj.ot_rcp_version
          cpc_version := parseVersionField obj.cpc_version
          fw_type := parseFwTypeField obj.fw_type
          fw_variant := obj.fw_variant
          baudrate := obj.baudrate }

/-! ## Pending-frame lifecycles (`cpc.CPCProtocol.send_unnumbered_frame`,
`spinel.SpinelProtocol.send_frame`)

The request/response clients are modelled at the level of their pending-frame
maps (the key sets).  A send call's attempt loop is driven by a schedule: one
`AttemptOutcome` per attempt, telling whether the awaited future resolves
within the timeout, times out, or the whole call is cancelled at that
suspension point. -/

/-- What happens at one attempt's suspension point. -/
inductive AttemptOutcome
  /-- The matching response resolves the future within the timeout. -/
  | response
  /-- The timeout elapses (retry, or raise when attempts are exhausted). -/
  | timeout
  /-- The surrounding task is cancelled. -/
  | cancelled
deriving DecidableEq, Repr

/-- How the send call exits. -/
inductive SendExit
  /-- Returns the response. -/
  | ok
  /-- Raises `asyncio.TimeoutError` after exhausting the retries. -/
  | timedOut
  /-- `asyncio.CancelledError` propagates. -/
  | cancelled
deriving DecidableEq, Repr

/-- The retry loop `for attempt in range(retries + 1)` of both clients: each
attempt consumes one schedule entry; an exhausted schedule behaves as
timeouts. -/
def runAttempts : List AttemptOutcome → Nat → SendExit
  | .response :: _, _ => .ok
  | .cancelled :: _, _ => .cancelled
  | .timeout :: rest, r + 1 => runAttempts rest r
  | .timeout :: _, 0 => .timedOut
  | [], r + 1 => runAttempts [] r
  | [], 0 => .timedOut

/-- The mutable state of `CPCProtocol` that `send_unnumbered_frame`
touches. -/
structure CpcClientState where
  commandSeq : Nat
  pendingFrames : Finset Nat
deriving DecidableEq

/-- `CPCProtocol.send_unnumbered_frame`: build the frame with the current
sequence, advance the sequence mod 256, register the pending future under the
frame's sequence, run the attempt loop, and remove the entry on the way out —
on the response path `frame_received` pops it before resolving the future; on
the timeout and cancellation paths the `finally` block pops it. -/
def cpcSendUnnumberedFrame (st : CpcClientState) (retries : Nat)
    (sched : List AttemptOutcome) : SendExit × CpcClientState :=
  let seq := st.commandSeq
  let pending1 := insert seq st.pendingFrames
  (runAttempts sched retries,
   { commandSeq := (seq + 1) % 256, pendingFrames := pending1.erase seq })

/-- The mutable state of `SpinelProtocol` that `send_frame` touches. -/
structure SpinelClientState where
  transactionId : Nat
  pendingFrames : Finset Nat
deriving DecidableEq

/-- `SpinelProtocol.send_frame`: advance the transaction id
(`(tid + 1) % 14`, used as `1 + tid`), register the pending future, then —
with `wait_response=False` — send once and return immediately, leaving the
entry registered (the early `return None` precedes the `try/finally`); with
`wait_response=True`, run the attempt loop and delete the entry in the
`finally` block. -/
def spinelSendFrame (st : SpinelClientState) (waitResponse : Bool)
    (retries : Nat) (sched : List AttemptOutcome) :
    SendExit × SpinelClientState :=
  let t := (st.transactionId + 1) % 14
  let tid := 1 + t
  let pending1 := insert tid st.pendingFrames
  if waitResponse = false then
    (.ok, { transactionId := t, pendingFrames := pending1 })
  else
    (runAttempts sched retries,
     { transactionId := t, pendingFrames := pending1.erase tid })

/-- Valid HDLC-Lite wire bytes: the encoding of some frame data. -/
def HdlcValidWire (b : List Nat) : Prop := ∃ d, hdlcSerialize d = b

/-- Valid Spinel wire bytes. -/
def SpinelValidWire (b : List Nat) : Prop :=
  ∃ f, SpinelFrameValid f ∧ spinelFrameSerialize f = some b

/-- Valid CPC unnumbered-frame wire bytes. -/
def CpcUnnumberedValidWire (b : List Nat) : Prop :=
  ∃ f, CpcUnnumberedValid f ∧ cpcUnnumberedToBytes f = some b

/-- Valid CPC transport-frame wire bytes. -/
def CpcTransportValidWire (b : List Nat) : Prop :=
  ∃ f, CpcTransportValid f ∧ cpcTransportSerialize f = some b

/-- Valid GBL file bytes. -/
def GblValidWire (b : List Nat) : Prop :=
  ∃ tags, GblValid tags ∧ gblSerialize tags = some b

/-- Valid EBL file bytes. -/
def EblValidWire (b : List Nat) : Prop :=
  ∃ tags, EblValid tags ∧ eblSerialize tags = some b

/-- A concrete Spinel frame (transaction 1, flag 0b10, PROP_VALUE_GET of
property 2). -/
def spinelWitnessFrame : SpinelFrame := ⟨⟨1, 0, 2⟩, 2, [2]⟩

/-- Its wire bytes. -/
def spinelWitnessBytes : List Nat :=
  (spinelFrameSerialize spinelWitnessFrame).getD []

/-- A concrete unnumbered CPC frame (PROP_VALUE_GET of property 2, seq 0). -/
def cpcUnnWitnessFrame : CpcUnnumberedFrame := ⟨.propValueGet, 0, .property 2 []⟩

/-- Its wire bytes. -/
def cpcUnnWitnessBytes : List Nat :=
  (cpcUnnumberedToBytes cpcUnnWitnessFrame).getD []

/-- A concrete CPC transport frame (endpoint SYSTEM, UNNUMBERED/POLL_FINAL
control byte 0xC4). -/
def cpcWitnessFrame : CpcTransportFrame := ⟨0, 0xC4, cpcUnnWitnessFrame⟩

/-- Its wire bytes. -/
def cpcWitnessBytes : List Nat :=
  (cpcTransportSerialize cpcWitnessFrame).getD []

/-- The END value of a minimal concrete GBL image: exactly the CRC-32 of the
preceding file bytes. -/
def gblWitnessEnd : List Nat :=
  toBytesLE4 (crc32 (gblChunk (gblTagHEADER, [0, 0, 0, 0]) ++
    toBytesLE4 gblTagEND ++ toBytesLE4 4))

/-- A minimal concrete GBL image value. -/
def gblWitnessTags : List (Nat × List Nat) :=
  [(gblTagHEADER, [0, 0, 0, 0]), (gblTagEND, gblWitnessEnd)]

/-- Its file bytes. -/
def gblWitnessBytes : List Nat := (gblSerialize gblWitnessTags).getD []

/-- The END value of a minimal concrete EBL image. -/
def eblWitnessEnd : List Nat :=
  toBytesLE4 (crc32 (eblChunk (eblTagHEADER, [0, 0, 0, 0]) ++
    toBytesLE2 eblTagEND ++ toBytesBE2 4))

/-- A minimal concrete EBL image value. -/
def eblWitnessTags : List (Nat × List Nat) :=
  [(eblTagHEADER, [0, 0, 0, 0]), (eblTagEND, eblWitnessEnd)]

/-- Its file bytes (48 bytes of `0xFF` padding to the 64-byte multiple). -/
def eblWitnessBytes : List Nat := (eblSerialize eblWitnessTags).getD []

/-! ## Claim theorems -/

/-- The CRC test vectors of the spec hold for the embedded `crc16_kermit`. -/
example : crc16_kermit [] = 0x0000 := by decide

example : crc16_kermit [0x66, 0x6F, 0x6F, 0x62, 0x61, 0x72] = 0x147B := by decide

example :
    crc16_kermit [0xFA, 0x9B, 0x51, 0xB9, 0xF2, 0x53, 0xE3, 0xBD] = 0x6782 := by
  decide

/-! ## Packed uint21 (`spinel_types.py`, class `PackedUInt21`) -/

lemma packedChunksRawAux_irrel :
    ∀ (f1 f2 n : Nat), n ≤ f1 → n ≤ f2 →
      packedChunksRawAux f1 n = packedChunksRawAux f2 n := by
  intro f1
  induction f1 with
  | zero =>
    intro f2 n h1 _
    have : n = 0 := by omega
    subst this
    cases f2 <;> simp [packedChunksRawAux]
  | succ f1 ih =>
    intro f2 n h1 h2
    by_cases h0 : n = 0
    · subst h0
      cases f2 <;> simp [packedChunksRawAux]
    · have hf2 : ∃ f2p, f2 = f2p + 1 := ⟨f2 - 1, by omega⟩
      obtain ⟨f2p, rfl⟩ := hf2
      simp only [packedChunksRawAux, if_neg h0]
      have hd : n / 128 < n := Nat.div_lt_self (by omega) (by omega)
      rw [ih f2p (n / 128) (by omega) (by omega)]

lemma packedChunksRaw_eq (n : Nat) :
    packedChunksRaw n =
      if n = 0 then [] else (n % 128 + 128) :: packedChunksRaw (n / 128) := by
  by_cases h0 : n = 0
  · subst h0; rfl
  · have hn : ∃ m, n = m + 1 := ⟨n - 1, by omega⟩
    obtain ⟨m, rfl⟩ := hn
    show packedChunksRawAux (m + 1) (m + 1) = _
    rw [if_neg h0]
    simp only [packedChunksRawAux, if_neg h0]
    rw [packedChunksRawAux_irrel m ((m + 1) / 128) ((m + 1) / 128)
      (by omega) (by omega)]
    rfl

lemma packedSerialize_eq_small {n : Nat} (h1 : 0 < n) (h2 : n < 128) :
    packedSerialize n = some [n] := by
  have hd : n / 128 = 0 := Nat.div_eq_of_lt h2
  have hm : n % 128 = n := Nat.mod_eq_of_lt h2
  unfold packedSerialize
  rw [packedChunksRaw_eq, if_neg (by omega), hd, packedChunksRaw_eq, if_pos rfl, hm]
  simp [stripLastMSB]
  omega

lemma packedSerialize_eq_mid {n : Nat} (h1 : 128 ≤ n) (h2 : n < 16384) :
    packedSerialize n = some [n % 128 + 128, n / 128] := by
  have hd1 : 0 < n / 128 := Nat.div_pos h1 (by omega)
  have hd2 : n / 128 < 128 := by omega
  have hdd : n / 128 / 128 = 0 := Nat.div_eq_of_lt hd2
  unfold packedSerialize
  rw [packedChunksRaw_eq, if_neg (by omega), packedChunksRaw_eq, if_neg (by omega),
    hdd, packedChunksRaw_eq, if_pos rfl]
  simp [stripLastMSB]
  omega

lemma packedSerialize_eq_large {n : Nat} (h1 : 16384 ≤ n) (h2 : n < 2097152) :
    packedSerialize n = some [n % 128 + 128, n / 128 % 128 + 128, n / 16384] := by
  have h128 : n / 128 / 128 = n / 16384 := by
    rw [Nat.div_div_eq_div_mul]
  have hd1 : 128 ≤ n / 128 := by omega
  have hd2 : 0 < n / 16384 := Nat.div_pos h1 (by omega)
  have hd3 : n / 16384 < 128 := by omega
  have hddd : n / 16384 / 128 = 0 := Nat.div_eq_of_lt hd3
  unfold packedSerialize
  rw [packedChunksRaw_eq, if_neg (by omega), packedChunksRaw_eq, if_neg (by omega),
    h128, packedChunksRaw_eq, if_neg (by omega), hddd, packedChunksRaw_eq, if_pos rfl]
  simp [stripLastMSB]
  omega

/-- Encoding then decoding a packed uint21 returns the value and leaves the
trailing bytes untouched. -/
theorem packedDeserialize_packedSerialize {n : Nat} {bs : List Nat}
    (hn : n < 2097152) (h : packedSerialize n = some bs) (rest : List Nat) :
    packedDeserialize (bs ++ rest) = .ok (n, rest) := by
  have hn0 : 0 < n := by
    by_contra h0
    have : n = 0 := by omega
    subst this
    simp [packedSerialize, packedChunksRaw_eq] at h
  rcases Nat.lt_or_ge n 128 with hc | hc
  · rw [packedSerialize_eq_small hn0 hc] at h
    cases h
    simp only [packedDeserialize, packedScan, List.cons_append, List.nil_append]
    have c1 : ¬([] ++ [n % 128]).length > 3 := by simp
    have c2 : n / 128 % 2 = 0 := by omega
    simp [c2, Nat.mod_eq_of_lt hc]
  · rcases Nat.lt_or_ge n 16384 with hc2 | hc2
    · rw [packedSerialize_eq_mid hc hc2] at h
      cases h
      simp only [packedDeserialize, packedScan, List.cons_append, List.nil_append]
      have c1 : (n % 128 + 128) / 128 % 2 = 1 := by omega
      have c2 : n / 128 / 128 % 2 = 0 := by omega
      have c3 : (n % 128 + 128) % 128 = n % 128 := by omega
      have c4 : n / 128 % 128 = n / 128 := Nat.mod_eq_of_lt (by omega)
      simp [c1, c2, c3, c4]
      omega
    · rcases Nat.lt_or_ge n 2097152 with hc3 | hc3
      · rw [packedSerialize_eq_large hc2 hc3] at h
        cases h
        simp only [packedDeserialize, packedScan, List.cons_append, List.nil_append]
        have e1 : (n % 128 + 128) % 128 = n % 128 := by omega
        have e2 : (n / 128 % 128 + 128) % 128 = n / 128 % 128 := by omega
        have c1 : (n % 128 + 128) / 128 % 2 = 1 := by omega
        have c2 : (n / 128 % 128 + 128) / 128 % 2 = 1 := by omega
        have c3 : n / 16384 / 128 % 2 = 0 := by
          have : n / 16384 < 128 := by omega
          omega
        have c4 : n / 16384 % 128 = n / 16384 := Nat.mod_eq_of_lt (by omega)
        simp [e1, e2, c1, c2, c3, c4]
        have h1 : n / 128 % 128 = n / 128 - 128 * (n / 16384) := by
          have := Nat.div_div_eq_div_mul n 128 128
          omega
        have h2 : n % 128 = n - 128 * (n / 128) := by omega
        omega
      · omega

/-! ## HDLC-Lite framing (`spinel.py`, class `HDLCLiteFrame`) -/

lemma hdlcUnescape_escape (p : List Nat) :
    ∀ (acc rest : List Nat),
      hdlcUnescape false acc (hdlcEscapeBytes p ++ rest) =
        hdlcUnescape false (acc ++ p) rest := by
  induction p with
  | nil => intro acc rest; simp [hdlcEscapeBytes]
  | cons b bs ih =>
    intro acc rest
    by_cases hb : b ∈ hdlcSpecials
    · have hx : (b ^^^ 0x20) ^^^ 0x20 = b := by
        rw [Nat.xor_assoc, Nat.xor_self, Nat.xor_zero]
      simp only [hdlcEscapeBytes, if_pos hb, List.cons_append, hdlcUnescape,
        if_pos rfl, hx, if_pos hb]
      rw [ih, List.append_assoc]
      rfl
    · have h1 : b ≠ 0x7D := by intro h; subst h; simp [hdlcSpecials] at hb
      have h2 : b ≠ 0x7E := by intro h; subst h; simp [hdlcSpecials] at hb
      simp only [hdlcEscapeBytes, if_neg hb, List.cons_append, hdlcUnescape,
        if_neg h1, if_neg h2]
      rw [ih, List.append_assoc]
      rfl

/-- Decoding an encoded HDLC-Lite frame recovers the original data. -/
theorem hdlcFromBytes_serialize (data : List Nat) :
    hdlcFromBytes (hdlcSerialize data) = .ok data := by
  unfold hdlcSerialize hdlcFromBytes
  have h1 : hdlcUnescape false []
      (0x7E :: (hdlcEscapeBytes (data ++ toBytesLE2 (crc16_kermit data)) ++ [0x7E])) =
      .ok (data ++ toBytesLE2 (crc16_kermit data)) := by
    show hdlcUnescape false [] _ = _
    rw [show hdlcUnescape false []
        (0x7E :: (hdlcEscapeBytes (data ++ toBytesLE2 (crc16_kermit data)) ++ [0x7E])) =
        hdlcUnescape false [] (hdlcEscapeBytes (data ++ toBytesLE2 (crc16_kermit data)) ++ [0x7E])
      from by simp [hdlcUnescape]]
    rw [hdlcUnescape_escape]
    simp [hdlcUnescape]
  rw [h1]
  have hlen : (data ++ toBytesLE2 (crc16_kermit data)).length - 2 = data.length := by
    simp [toBytesLE2]
  have htake : (data ++ toBytesLE2 (crc16_kermit data)).take data.length = data :=
    List.take_left data _
  have hdrop : (data ++ toBytesLE2 (crc16_kermit data)).drop data.length =
      toBytesLE2 (crc16_kermit data) := List.drop_left data _
  simp only [bind, Except.bind, hlen, htake, hdrop, if_pos rfl]
  rfl

/-! ## Spinel frames (`spinel.py`, classes `SpinelHeader` and `SpinelFrame`) -/

/-- Decoding an encoded Spinel frame recovers the frame. -/
theorem spinelFrameFromBytes_serialize {f : SpinelFrame} {bs : List Nat}
    (hv : SpinelFrameValid f) (h : spinelFrameSerialize f = some bs) :
    spinelFrameFromBytes bs = .ok f := by
  obtain ⟨⟨tid, nli, flag⟩, cid, fdata⟩ := f
  obtain ⟨h1, h2, h3, h4, h5⟩ := hv
  simp only at h1 h2 h3 h4 h5
  subst h3
  obtain ⟨cb, hcb⟩ : ∃ cb, packedSerialize cid = some cb := by
    rcases Nat.lt_or_ge cid 128 with hc | hc
    · exact ⟨_, packedSerialize_eq_small h4 hc⟩
    · exact ⟨_, packedSerialize_eq_mid hc (by omega)⟩
  rw [spinelFrameSerialize, spinelHeaderSerialize] at h
  simp only [if_pos (show tid < 16 ∧ nli < 4 ∧ (2 : Nat) < 4 from ⟨h1, h2, by omega⟩),
    Option.some_bind, hcb, Option.bind_eq_bind, Option.bind_some, pure,
    Option.some.injEq] at h
  subst h
  rw [spinelFrameFromBytes]
  have hb : (tid + 16 * nli + 64 * 2) % 16 = tid := by omega
  have hb2 : (tid + 16 * nli + 64 * 2) / 16 % 4 = nli := by omega
  have hb3 : (tid + 16 * nli + 64 * 2) / 64 % 4 = 2 := by omega
  simp only [List.cons_append, List.nil_append, spinelHeaderDeserialize,
    bind, Except.bind, hb, hb2, hb3]
  rw [if_neg (by simp)]
  rw [commandIdDeserialize]
  rw [packedDeserialize_packedSerialize (by omega) hcb fdata]
  simp [bind, Except.bind, isSpinelCommandId, h5, pure, Except.pure]

/-! ## CPC types

Modelled from the spec: `cpc_types.py` is not part of the source tree.  Per
the spec, the CPC flag byte is 0x14; the control byte encodes the frame type
in bits 7–6 (0 is treated as 1 = IFRAME, 3 = UNNUMBERED) and, for unnumbered
frames, the unnumbered sub-type in bits 5–0; the unnumbered command id is one
of PROP_VALUE_GET / PROP_VALUE_SET / PROP_VALUE_IS / RESET; property ids use
the packed-integer family of Spinel. -/

lemma packedDeserialize_packedSerializeSpec {n : Nat} (hn : n < 2097152)
    (rest : List Nat) :
    packedDeserialize (packedSerializeSpec n ++ rest) = .ok (n, rest) := by
  by_cases h0 : n = 0
  · subst h0
    simp [packedSerializeSpec, packedDeserialize, packedScan, pure, Except.pure,
      bind, Except.bind]
  · have hs : packedSerialize n = some (stripLastMSB (packedChunksRaw n)) := by
      unfold packedSerialize
      have : packedChunksRaw n ≠ [] := by
        rw [packedChunksRaw_eq, if_neg h0]; simp
      match hc : packedChunksRaw n with
      | [] => exact absurd hc this
      | c :: cs => rfl
    rw [packedSerializeSpec, if_neg h0]
    exact packedDeserialize_packedSerialize hn hs rest

lemma cpcCommandIdFromByte_toByte (c : CpcCommandId) :
    cpcCommandIdFromByte c.toByte = some c := by
  cases c <;> rfl

lemma cpcCommandFromBytes_toBytes {c : CpcCommandId} {p : CpcCommand}
    (hm : CpcCommandMatches c p) :
    cpcCommandFromBytes c (cpcCommandToBytes p) = .ok p := by
  cases c <;> cases p
  case propValueGet.property pid value =>
    simp only [cpcCommandToBytes, cpcCommandFromBytes,
      packedDeserialize_packedSerializeSpec hm.1 value, bind, Except.bind, pure,
      Except.pure]
  case propValueSet.property pid value =>
    simp only [cpcCommandToBytes, cpcCommandFromBytes,
      packedDeserialize_packedSerializeSpec hm.1 value, bind, Except.bind, pure,
      Except.pure]
  case propValueIs.property pid value =>
    simp only [cpcCommandToBytes, cpcCommandFromBytes,
      packedDeserialize_packedSerializeSpec hm.1 value, bind, Except.bind, pure,
      Except.pure]
  case reset.reset s =>
    cases s <;> rfl
  case propValueGet.reset s => cases s <;> simp [CpcCommandMatches] at hm
  case propValueSet.reset s => cases s <;> simp [CpcCommandMatches] at hm
  case propValueIs.reset s => cases s <;> simp [CpcCommandMatches] at hm
  case reset.property pid value => simp [CpcCommandMatches] at hm

/-- Decoding an encoded unnumbered CPC frame recovers the frame. -/
theorem cpcUnnumberedFromBytes_toBytes {f : CpcUnnumberedFrame} {bs : List Nat}
    (hv : CpcUnnumberedValid f) (h : cpcUnnumberedToBytes f = some bs) :
    cpcUnnumberedFromBytes bs = .ok f := by
  obtain ⟨h1, h2, h3⟩ := hv
  rw [cpcUnnumberedToBytes, if_pos ⟨h1, h2⟩] at h
  cases h
  obtain ⟨cmd, seq, pl⟩ := f
  simp only at h1 h2 h3 ⊢
  set payload := cpcCommandToBytes pl with hpl
  simp only [cpcUnnumberedFromBytes, toBytesLE2, List.cons_append, List.nil_append,
    cpcCommandIdFromByte_toByte]
  have hlen : payload.length % 256 + 256 * (payload.length / 256 % 256) =
      payload.length := by omega
  rw [hlen]
  rw [if_neg (by omega), if_neg (by simp)]
  simp only [List.take_length, List.drop_length]
  rw [cpcCommandFromBytes_toBytes h3]
  rfl

lemma ccittStep_lt (c : Nat) : ccittStep c < 65536 := by
  unfold ccittStep
  split <;> exact Nat.mod_lt _ (by omega)

lemma crc16_ccitt_lt (data : List Nat) : crc16_ccitt data < 65536 := by
  suffices h : ∀ (l : List Nat) (init : Nat), init < 65536 →
      l.foldl (fun crc b => iter8 ccittStep (crc ^^^ b % 256 * 256)) init < 65536 by
    exact h data 0 (by omega)
  intro l
  induction l with
  | nil => intro init h; simpa using h
  | cons b bs ih =>
    intro init h
    simpa using ih _ (ccittStep_lt _)

/-- Decoding an encoded CPC transport frame recovers the frame, leaving
trailing bytes untouched. -/
theorem cpcTransportDeserialize_serialize {f : CpcTransportFrame} {bs : List Nat}
    (hv : CpcTransportValid f) (h : cpcTransportSerialize f = some bs)
    (tail : List Nat) :
    cpcTransportDeserialize (bs ++ tail) = .ok (f, tail) := by
  obtain ⟨h1, h2, h3, h4, h5⟩ := hv
  obtain ⟨pl, hpl⟩ : ∃ pl, cpcUnnumberedToBytes f.payload = some pl := by
    rw [cpcUnnumberedToBytes, if_pos ⟨h4.1, h4.2.1⟩]
    exact ⟨_, rfl⟩
  have hplen : pl.length = (cpcCommandToBytes f.payload.payload).length + 4 := by
    rw [cpcUnnumberedToBytes, if_pos ⟨h4.1, h4.2.1⟩] at hpl
    cases hpl
    simp [toBytesLE2]
  rw [cpcTransportSerialize, hpl] at h
  simp only [bind, Option.bind, if_pos (show f.endpoint < 256 ∧ f.control < 256 ∧
    pl.length + 2 < 65536 from ⟨h1, h2, by omega⟩), Option.some.injEq] at h
  subst h
  set header : List Nat :=
    [cpcFLAG, f.endpoint] ++ toBytesLE2 (pl.length + 2) ++ [f.control] with hheader
  have hhc := crc16_ccitt_lt header
  have hpc := crc16_ccitt_lt pl
  simp only [hheader, toBytesLE2, List.cons_append, List.nil_append, cpcFLAG,
    List.append_assoc] at *
  simp only [cpcTransportDeserialize]
  rw [if_neg (show ¬((20 : Nat) ≠ cpcFLAG) by simp [cpcFLAG])]
  have hlen2 : (pl.length + 2) % 256 + 256 * ((pl.length + 2) / 256 % 256) =
      pl.length + 2 := by omega
  have hhcrec : crc16_ccitt [20, f.endpoint, (pl.length + 2) % 256,
      (pl.length + 2) / 256 % 256, f.control] % 256 + 256 *
      (crc16_ccitt [20, f.endpoint, (pl.length + 2) % 256,
        (pl.length + 2) / 256 % 256, f.control] / 256 % 256) =
      crc16_ccitt [20, f.endpoint, (pl.length + 2) % 256,
        (pl.length + 2) / 256 % 256, f.control] := by omega
  rw [if_neg (by rw [hhcrec]; simp)]
  have hrlen : (pl ++ (crc16_ccitt pl % 256 :: (crc16_ccitt pl / 256 % 256 :: tail))).length =
      pl.length + 2 + tail.length := by simp; omega
  rw [if_neg (by rw [hlen2, hrlen]; omega)]
  have htk : pyTake (pl ++ (crc16_ccitt pl % 256 :: (crc16_ccitt pl / 256 % 256 :: tail)))
      (((((pl.length + 2) % 256 + 256 * ((pl.length + 2) / 256 % 256) : Nat)) : Int) - 2) =
      pl := by
    rw [hlen2]
    unfold pyTake
    rw [if_pos (by omega)]
    have : ((((pl.length : Nat) + 2 : Nat) : Int) - 2).toNat = pl.length := by omega
    rw [this]
    exact List.take_left pl _
  have hdr : pyDrop (pl ++ (crc16_ccitt pl % 256 :: (crc16_ccitt pl / 256 % 256 :: tail)))
      (((((pl.length + 2) % 256 + 256 * ((pl.length + 2) / 256 % 256) : Nat)) : Int) - 2) =
      crc16_ccitt pl % 256 :: (crc16_ccitt pl / 256 % 256 :: tail) := by
    rw [hlen2]
    unfold pyDrop
    rw [if_pos (by omega)]
    have : ((((pl.length : Nat) + 2 : Nat) : Int) - 2).toNat = pl.length := by omega
    rw [this]
    exact List.drop_left pl _
  rw [htk, hdr]
  dsimp only
  rw [if_neg (by omega), if_neg (by rw [h3]; simp)]
  have huf : cpcUnnumberedFromBytes pl = .ok f.payload :=
    cpcUnnumberedFromBytes_toBytes h4 hpl
  rw [huf]
  rfl

/-! ## The CPC incremental decode loop (`CPCProtocol.data_received`) -/

lemma mapM_option_eq_map {α β : Type} (f : α → Option β) (g : α → β) :
    ∀ (l : List α), (∀ x ∈ l, f x = some (g x)) → l.mapM f = some (l.map g) := by
  intro l
  induction l with
  | nil => intro _; rfl
  | cons x xs ih =>
    intro h
    rw [List.mapM_cons, h x (List.mem_cons_self x xs),
      ih (fun y hy => h y (List.mem_cons_of_mem _ hy))]
    rfl

lemma pad_to_multiple_decomp (d : List Nat) (m fill : Nat) (hm : 0 < m) :
    ∃ k, k < m ∧ pad_to_multiple d m fill = d ++ List.replicate k fill := by
  unfold pad_to_multiple
  by_cases h : d.length % m = 0
  · exact ⟨0, hm, by simp [h]⟩
  · refine ⟨m * (d.length / m + 1) - d.length, ?_, by simp [h]⟩
    have h1 := Nat.div_add_mod d.length m
    have h2 : d.length % m < m := Nat.mod_lt _ hm
    have h3 : m * (d.length / m + 1) = m * (d.length / m) + m := by ring
    omega

lemma toBytesLE4_recon {n : Nat} (h : n < 4294967296) :
    n % 256 + 256 * (n / 256 % 256) + 65536 * (n / 65536 % 256) +
      16777216 * (n / 16777216 % 256) = n := by omega

/-- The record loop accepts the concatenation of well-formed chunks ending in
a CRC-correct END record followed by short `0xFF` padding. -/
lemma gblReadRecords_chunks (pre : List (Nat × List Nat)) :
    ∀ (seen : List Nat) (endv pad : List Nat),
      (∀ p ∈ pre, p.1 ≠ gblTagEND ∧ p.1 < 4294967296 ∧ p.2.length < 4294967296) →
      endv.length < 4294967296 → 4 ≤ endv.length →
      (∀ b ∈ pad, b = 0xFF) → pad.length < 4 →
      endv.drop (endv.length - 4) =
        toBytesLE4 (crc32 (seen ++ (pre.map gblChunk).flatten ++
          toBytesLE4 gblTagEND ++ toBytesLE4 endv.length ++
          endv.take (endv.length - 4))) →
      gblReadRecords seen
          ((pre.map gblChunk).flatten ++ gblChunk (gblTagEND, endv) ++ pad) =
        .ok (pre ++ [(gblTagEND, endv)]) := by
  induction pre with
  | nil =>
    intro seen endv pad _ hlt h4 hpad hpadlen hcrc
    simp only [List.map_nil, List.flatten_nil, List.nil_append, gblChunk,
      toBytesLE4, List.cons_append, List.append_assoc, List.nil_append]
    rw [gblReadRecords]
    have hTagRec : gblTagEND % 256 + 256 * (gblTagEND / 256 % 256) +
        65536 * (gblTagEND / 65536 % 256) + 16777216 * (gblTagEND / 16777216 % 256) =
        gblTagEND := toBytesLE4_recon (by norm_num [gblTagEND])
    have hLenRec : endv.length % 256 + 256 * (endv.length / 256 % 256) +
        65536 * (endv.length / 65536 % 256) +
        16777216 * (endv.length / 16777216 % 256) = endv.length :=
      toBytesLE4_recon hlt
    rw [hTagRec, hLenRec]
    have hrlen : (endv ++ pad).length = endv.length + pad.length := by simp
    rw [if_neg (by omega)]
    have htake : (endv ++ pad).take endv.length = endv := List.take_left endv pad
    have hdrop : (endv ++ pad).drop endv.length = pad := List.drop_left endv pad
    rw [htake, hdrop, if_pos rfl]
    have hcond : (∀ b ∈ pad, b = 0xFF) ∧ pad.length < 4 ∧ 4 ≤ endv.length ∧
        endv.drop (endv.length - 4) =
          toBytesLE4 (crc32 (seen ++ [gblTagEND % 256, gblTagEND / 256 % 256,
            gblTagEND / 65536 % 256, gblTagEND / 16777216 % 256,
            endv.length % 256, endv.length / 256 % 256, endv.length / 65536 % 256,
            endv.length / 16777216 % 256] ++ endv.take (endv.length - 4))) := by
      refine ⟨hpad, by omega, h4, ?_⟩
      rw [hcrc]
      congr 2
      simp [toBytesLE4, List.append_assoc]
    rw [if_pos hcond]
  | cons p ps ih =>
    intro seen endv pad hpre hlt h4 hpad hpadlen hcrc
    obtain ⟨hp1, hp2, hp3⟩ := hpre p (List.mem_cons_self p ps)
    simp only [List.map_cons, List.flatten_cons, List.append_assoc]
    rw [show gblChunk p ++ ((ps.map gblChunk).flatten ++
        (gblChunk (gblTagEND, endv) ++ pad)) =
        toBytesLE4 p.1 ++ (toBytesLE4 p.2.length ++ (p.2 ++
          ((ps.map gblChunk).flatten ++ (gblChunk (gblTagEND, endv) ++ pad))))
      from by simp [gblChunk, List.append_assoc]]
    simp only [toBytesLE4, List.cons_append, List.nil_append]
    rw [gblReadRecords]
    rw [toBytesLE4_recon hp2, toBytesLE4_recon hp3]
    have hrlen : (p.2 ++ ((ps.map gblChunk).flatten ++
        (gblChunk (gblTagEND, endv) ++ pad))).length =
        p.2.length + ((ps.map gblChunk).flatten.length +
          (gblChunk (gblTagEND, endv)).length + pad.length) := by simp; omega
    rw [if_neg (by omega)]
    have htake : (p.2 ++ ((ps.map gblChunk).flatten ++
        (gblChunk (gblTagEND, endv) ++ pad))).take p.2.length = p.2 :=
      List.take_left p.2 _
    have hdrop : (p.2 ++ ((ps.map gblChunk).flatten ++
        (gblChunk (gblTagEND, endv) ++ pad))).drop p.2.length =
        (ps.map gblChunk).flatten ++ (gblChunk (gblTagEND, endv) ++ pad) :=
      List.drop_left p.2 _
    rw [htake, hdrop, if_neg hp1]
    have ihx := ih (seen ++ [p.1 % 256, p.1 / 256 % 256, p.1 / 65536 % 256,
        p.1 / 16777216 % 256, p.2.length % 256, p.2.length / 256 % 256,
        p.2.length / 65536 % 256, p.2.length / 16777216 % 256] ++ p.2) endv pad
      (fun q hq => hpre q (List.mem_cons_of_mem p hq)) hlt h4 hpad hpadlen ?_
    · rw [← List.append_assoc, ihx]
      rfl
    · rw [hcrc]
      congr 2
      simp [gblChunk, toBytesLE4, List.append_assoc]

/-- Decoding an encoded GBL image recovers its tag list. -/
theorem gblParse_serialize {tags : List (Nat × List Nat)} {bs : List Nat}
    (hv : GblValid tags) (h : gblSerialize tags = some bs) :
    gblParse bs = .ok tags := by
  have hne : tags ≠ [] := hv.1
  obtain ⟨pre, pEnd, hsplit⟩ : ∃ pre pEnd, tags = pre ++ [pEnd] :=
    ⟨tags.dropLast, tags.getLast hne, (List.dropLast_append_getLast hne).symm⟩
  unfold GblValid at hv
  rw [hsplit] at hv h ⊢
  rw [List.getLastD_concat] at hv
  obtain ⟨-, hEndTag, hHead, hNoEnd, hBounds, h4, hcrc⟩ := hv
  have hdl : (pre ++ [pEnd]).dropLast = pre := by
    rw [List.dropLast_concat]
  rw [hdl] at hNoEnd hcrc
  obtain ⟨tEnd, endv⟩ := pEnd
  simp only at hEndTag
  subst hEndTag
  -- the serializer succeeds chunk-wise
  have hmap : (pre ++ [(gblTagEND, endv)]).mapM (fun p =>
      if p.1 < 4294967296 ∧ p.2.length < 4294967296 then some (gblChunk p)
      else none) = some ((pre ++ [(gblTagEND, endv)]).map gblChunk) :=
    mapM_option_eq_map _ _ _ fun p hp => if_pos ⟨(hBounds p hp).1, (hBounds p hp).2.1⟩
  rw [gblSerialize, hmap] at h
  simp only [bind, Option.bind, pure, Option.some.injEq] at h
  obtain ⟨k, hk, hpad⟩ :=
    pad_to_multiple_decomp ((pre ++ [(gblTagEND, endv)]).map gblChunk).flatten 4 0xFF
      (by omega)
  rw [hpad] at h
  subst h
  have hflat : ((pre ++ [(gblTagEND, endv)]).map gblChunk).flatten =
      (pre.map gblChunk).flatten ++ gblChunk (gblTagEND, endv) := by
    simp [List.map_append, List.flatten_append]
  rw [hflat]
  have hEndBounds := hBounds (gblTagEND, endv) (by simp)
  rw [gblParse]
  rw [List.append_assoc]
  rw [show (pre.map gblChunk).flatten ++ (gblChunk (gblTagEND, endv) ++
      List.replicate k 0xFF) =
      (pre.map gblChunk).flatten ++ gblChunk (gblTagEND, endv) ++
        List.replicate k 0xFF from by simp [List.append_assoc]]
  rw [gblReadRecords_chunks pre [] endv (List.replicate k 0xFF)
    (fun p hp => ⟨hNoEnd p hp, (hBounds p (List.mem_append_left _ hp)).1,
      (hBounds p (List.mem_append_left _ hp)).2.1⟩)
    hEndBounds.2.1 h4 (fun b hb => (List.eq_of_mem_replicate hb))
    (by simpa using hk) (by rw [hcrc]; simp)]
  rcases pre with _ | ⟨q, qs⟩
  · exact absurd (by simpa using hHead) (by decide)
  · have hq : q.1 = gblTagHEADER := by simpa using hHead
    show (match (q :: (qs ++ [(gblTagEND, endv)])).head? with
      | some p => if p.1 = gblTagHEADER then
          Except.ok (q :: (qs ++ [(gblTagEND, endv)]))
        else Except.error DecodeErr.valueError
      | none => Except.error DecodeErr.valueError) =
      Except.ok (q :: qs ++ [(gblTagEND, endv)])
    simp only [List.head?_cons]
    rw [if_pos hq]
    rfl

/-- The EBL record loop accepts the concatenation of well-formed chunks ending
in a CRC-correct END record followed by short `0xFF` padding. -/
lemma eblReadRecords_chunks (pre : List (Nat × List Nat)) :
    ∀ (seen : List Nat) (endv pad : List Nat),
      (∀ p ∈ pre, p.1 ≠ eblTagEND ∧ p.1 < 65536 ∧ p.2.length < 65536) →
      endv.length < 65536 → 4 ≤ endv.length →
      (∀ b ∈ pad, b = 0xFF) → pad.length < 64 →
      endv.drop (endv.length - 4) =
        toBytesLE4 (crc32 (seen ++ (pre.map eblChunk).flatten ++
          toBytesLE2 eblTagEND ++ toBytesBE2 endv.length ++
          endv.take (endv.length - 4))) →
      eblReadRecords seen
          ((pre.map eblChunk).flatten ++ eblChunk (eblTagEND, endv) ++ pad) =
        .ok (pre ++ [(eblTagEND, endv)]) := by
  induction pre with
  | nil =>
    intro seen endv pad _ hlt h4 hpad hpadlen hcrc
    simp only [List.map_nil, List.flatten_nil, List.nil_append, eblChunk,
      toBytesLE2, toBytesBE2, List.cons_append, List.append_assoc, List.nil_append]
    rw [eblReadRecords]
    have hTagRec : eblTagEND % 256 + 256 * (eblTagEND / 256 % 256) = eblTagEND := by
      norm_num [eblTagEND]
    have hLenRec : 256 * (endv.length / 256 % 256) + endv.length % 256 =
        endv.length := by omega
    rw [hTagRec, hLenRec]
    have hrlen : (endv ++ pad).length = endv.length + pad.length := by simp
    rw [if_neg (by omega)]
    have htake : (endv ++ pad).take endv.length = endv := List.take_left endv pad
    have hdrop : (endv ++ pad).drop endv.length = pad := List.drop_left endv pad
    rw [htake, hdrop, if_pos rfl]
    have hcond : (∀ b ∈ pad, b = 0xFF) ∧ pad.length < 64 ∧ 4 ≤ endv.length ∧
        endv.drop (endv.length - 4) =
          toBytesLE4 (crc32 (seen ++ [eblTagEND % 256, eblTagEND / 256 % 256,
            endv.length / 256 % 256, endv.length % 256] ++
            endv.take (endv.length - 4))) := by
      refine ⟨hpad, by omega, h4, ?_⟩
      rw [hcrc]
      congr 2
      simp [toBytesLE2, toBytesBE2, List.append_assoc]
    rw [if_pos hcond]
  | cons p ps ih =>
    intro seen endv pad hpre hlt h4 hpad hpadlen hcrc
    obtain ⟨hp1, hp2, hp3⟩ := hpre p (List.mem_cons_self p ps)
    simp only [List.map_cons, List.flatten_cons, List.append_assoc]
    rw [show eblChunk p ++ ((ps.map eblChunk).flatten ++
        (eblChunk (eblTagEND, endv) ++ pad)) =
        toBytesLE2 p.1 ++ (toBytesBE2 p.2.length ++ (p.2 ++
          ((ps.map eblChunk).flatten ++ (eblChunk (eblTagEND, endv) ++ pad))))
      from by simp [eblChunk, List.append_assoc]]
    simp only [toBytesLE2, toBytesBE2, List.cons_append, List.nil_append]
    rw [eblReadRecords]
    have hTagRec : p.1 % 256 + 256 * (p.1 / 256 % 256) = p.1 := by omega
    have hLenRec : 256 * (p.2.length / 256 % 256) + p.2.length % 256 =
        p.2.length := by omega
    rw [hTagRec, hLenRec]
    have hrlen : (p.2 ++ ((ps.map eblChunk).flatten ++
        (eblChunk (eblTagEND, endv) ++ pad))).length =
        p.2.length + ((ps.map eblChunk).flatten.length +
          (eblChunk (eblTagEND, endv)).length + pad.length) := by simp; omega
    rw [if_neg (by omega)]
    have htake : (p.2 ++ ((ps.map eblChunk).flatten ++
        (eblChunk (eblTagEND, endv) ++ pad))).take p.2.length = p.2 :=
      List.take_left p.2 _
    have hdrop : (p.2 ++ ((ps.map eblChunk).flatten ++
        (eblChunk (eblTagEND, endv) ++ pad))).drop p.2.length =
        (ps.map eblChunk).flatten ++ (eblChunk (eblTagEND, endv) ++ pad) :=
      List.drop_left p.2 _
    rw [htake, hdrop, if_neg hp1]
    have ihx := ih (seen ++ [p.1 % 256, p.1 / 256 % 256,
        p.2.length / 256 % 256, p.2.length % 256] ++ p.2) endv pad
      (fun q hq => hpre q (List.mem_cons_of_mem p hq)) hlt h4 hpad hpadlen ?_
    · rw [← List.append_assoc, ihx]
      rfl
    · rw [hcrc]
      congr 2
      simp [eblChunk, toBytesLE2, toBytesBE2, List.append_assoc]

/-- Decoding an encoded EBL image recovers its tag list. -/
theorem eblParse_serialize {tags : List (Nat × List Nat)} {bs : List Nat}
    (hv : EblValid tags) (h : eblSerialize tags = some bs) :
    eblParse bs = .ok tags := by
  have hne : tags ≠ [] := hv.1
  obtain ⟨pre, pEnd, hsplit⟩ : ∃ pre pEnd, tags = pre ++ [pEnd] :=
    ⟨tags.dropLast, tags.getLast hne, (List.dropLast_append_getLast hne).symm⟩
  unfold EblValid at hv
  rw [hsplit] at hv h ⊢
  rw [List.getLastD_concat] at hv
  obtain ⟨-, hEndTag, hHead, hNoEnd, hBounds, h4, hcrc⟩ := hv
  have hdl : (pre ++ [pEnd]).dropLast = pre := by
    rw [List.dropLast_concat]
  rw [hdl] at hNoEnd hcrc
  obtain ⟨tEnd, endv⟩ := pEnd
  simp only at hEndTag
  subst hEndTag
  have hmap : (pre ++ [(eblTagEND, endv)]).mapM (fun p =>
      if p.1 < 65536 ∧ p.2.length < 65536 then some (eblChunk p)
      else none) = some ((pre ++ [(eblTagEND, endv)]).map eblChunk) :=
    mapM_option_eq_map _ _ _ fun p hp => if_pos ⟨(hBounds p hp).1, (hBounds p hp).2.1⟩
  rw [eblSerialize, hmap] at h
  simp only [bind, Option.bind, pure, Option.some.injEq] at h
  obtain ⟨k, hk, hpad⟩ :=
    pad_to_multiple_decomp ((pre ++ [(eblTagEND, endv)]).map eblChunk).flatten 64 0xFF
      (by omega)
  rw [hpad] at h
  subst h
  have hflat : ((pre ++ [(eblTagEND, endv)]).map eblChunk).flatten =
      (pre.map eblChunk).flatten ++ eblChunk (eblTagEND, endv) := by
    simp [List.map_append, List.flatten_append]
  rw [hflat]
  have hEndBounds := hBounds (eblTagEND, endv) (by simp)
  rw [eblParse]
  rw [List.append_assoc]
  rw [show (pre.map eblChunk).flatten ++ (eblChunk (eblTagEND, endv) ++
      List.replicate k 0xFF) =
      (pre.map eblChunk).flatten ++ eblChunk (eblTagEND, endv) ++
        List.replicate k 0xFF from by simp [List.append_assoc]]
  rw [eblReadRecords_chunks pre [] endv (List.replicate k 0xFF)
    (fun p hp => ⟨hNoEnd p hp, (hBounds p (List.mem_append_left _ hp)).1,
      (hBounds p (List.mem_append_left _ hp)).2.1⟩)
    hEndBounds.2.1 h4 (fun b hb => (List.eq_of_mem_replicate hb))
    (by simpa using hk) (by rw [hcrc]; simp)]
  rcases pre with _ | ⟨q, qs⟩
  · exact absurd (by simpa using hHead) (by decide)
  · have hq : q.1 = eblTagHEADER := by simpa using hHead
    show (match (q :: (qs ++ [(eblTagEND, endv)])).head? with
      | some p => if p.1 = eblTagHEADER then
          Except.ok (q :: (qs ++ [(eblTagEND, endv)]))
        else Except.error DecodeErr.valueError
      | none => Except.error DecodeErr.valueError) =
      Except.ok (q :: qs ++ [(eblTagEND, endv)])
    simp only [List.head?_cons]
    rw [if_pos hq]
    rfl

/-! ## XMODEM-CRC sender (`xmodemcrc.py`) -/

lemma sendDataLoop_cons (data : List Nat) (mf r : Nat) (rs : List Nat) :
    sendDataLoop data mf (r :: rs) =
      if r = xACK then ([data], rs, .ok)
      else if r = xNAK then
        match mf with
        | 0 => ([data], rs, .tooManyFailures)
        | fl + 1 =>
          let w := sendDataLoop data fl rs
          (data :: w.1, w.2)
      else if r = xCAN then ([data], rs, .receiverCancelled)
      else ([data], rs, .framingError) := by
  cases mf <;> simp [sendDataLoop]

lemma sendDataLoop_writes (data : List Nat) :
    ∀ (script : List Nat) (mf : Nat),
      (sendDataLoop data mf script).1 =
        List.replicate (sendDataLoop data mf script).1.length data := by
  intro script
  induction script with
  | nil => intro mf; simp [sendDataLoop]
  | cons r rs ih =>
    intro mf
    rw [sendDataLoop_cons]
    by_cases hA : r = xACK
    · simp [hA]
    · by_cases hN : r = xNAK
      · rw [if_neg hA, if_pos hN]
        cases mf with
        | zero => simp
        | succ fl =>
          simp only [List.length_cons, List.replicate_succ]
          exact congrArg (data :: ·) (ih fl)
      · rw [if_neg hA, if_neg hN]
        by_cases hC : r = xCAN
        · rw [if_pos hC]; rfl
        · rw [if_neg hC]; rfl

lemma sendDataLoop_ok_iff (data : List Nat) :
    ∀ (script : List Nat) (mf : Nat),
      (sendDataLoop data mf script).2.2 = .ok ↔
        ∃ k, k ≤ mf ∧ k < script.length ∧ (∀ j < k, script.getD j 0 = xNAK) ∧
          script.getD k 0 = xACK := by
  intro script
  induction script with
  | nil =>
    intro mf
    simp [sendDataLoop]
  | cons r rs ih =>
    intro mf
    rw [sendDataLoop_cons]
    by_cases hA : r = xACK
    · subst hA
      rw [if_pos rfl]
      constructor
      · intro _
        exact ⟨0, Nat.zero_le _, by simp, by omega, by simp⟩
      · intro _; rfl
    · by_cases hN : r = xNAK
      · subst hN
        rw [if_neg hA, if_pos rfl]
        cases mf with
        | zero =>
          constructor
          · intro h; simp at h
          · rintro ⟨k, hk0, hklen, hP, hAck⟩
            have hk : k = 0 := by omega
            subst hk
            rw [List.getD_cons_zero] at hAck
            exact absurd hAck (by decide)
        | succ fl =>
          show (sendDataLoop data fl rs).2.2 = .ok ↔ _
          rw [ih fl]
          constructor
          · rintro ⟨k, h1, h2, h3, h4⟩
            refine ⟨k + 1, by omega, by simp; omega, ?_, by simpa using h4⟩
            intro j hj
            cases j with
            | zero => simp
            | succ j => simpa using h3 j (by omega)
          · rintro ⟨k, h1, h2, h3, h4⟩
            cases k with
            | zero =>
              rw [List.getD_cons_zero] at h4
              exact absurd h4 (by decide)
            | succ k =>
              refine ⟨k, by omega, by simpa using h2, ?_, by simpa using h4⟩
              intro j hj
              simpa using h3 (j + 1) (by omega)
      · constructor
        · intro h
          rw [if_neg hA, if_neg hN] at h
          by_cases hC : r = xCAN
          · rw [if_pos hC] at h; simp at h
          · rw [if_neg hC] at h; simp at h
        · rintro ⟨k, h1, h2, h3, h4⟩
          cases k with
          | zero =>
            rw [List.getD_cons_zero] at h4
            exact absurd h4 hA
          | succ k =>
            have h0 := h3 0 (by omega)
            rw [List.getD_cons_zero] at h0
            exact absurd h0 hN

lemma sendDataLoop_ack_writes (data : List Nat) :
    ∀ (k : Nat) (script : List Nat) (mf : Nat), k ≤ mf → k < script.length →
      (∀ j < k, script.getD j 0 = xNAK) → script.getD k 0 = xACK →
      (sendDataLoop data mf script).1.length = k + 1 := by
  intro k
  induction k with
  | zero =>
    intro script mf _ hlen _ hAck
    match script, hlen with
    | r :: rs, hl2 =>
      rw [List.getD_cons_zero] at hAck
      subst hAck
      rw [sendDataLoop_cons, if_pos rfl]
      rfl
  | succ k ih =>
    intro script mf hk hlen hP hAck
    match script, hlen with
    | r :: rs, hl2 =>
      have h0 := hP 0 (by omega)
      rw [List.getD_cons_zero] at h0
      subst h0
      match mf, hk with
      | fl + 1, _ =>
        rw [sendDataLoop_cons, if_neg (by decide), if_pos rfl]
        show (data :: (sendDataLoop data fl rs).1).length = k + 1 + 1
        rw [List.length_cons]
        rw [ih rs fl (by omega) (by simpa using hl2)
          (fun j hj => by simpa using hP (j + 1) (by omega)) (by simpa using hAck)]

lemma sendDataLoop_all_nak (data : List Nat) :
    ∀ (mf : Nat) (script : List Nat), (∀ j ≤ mf, script.getD j 0 = xNAK) →
      mf < script.length →
      (sendDataLoop data mf script).2.2 = .tooManyFailures ∧
        (sendDataLoop data mf script).1.length = mf + 1 := by
  intro mf
  induction mf with
  | zero =>
    intro script hP hlen
    match script, hlen with
    | r :: rs, hl2 =>
      have h0 := hP 0 (by omega)
      rw [List.getD_cons_zero] at h0
      subst h0
      rw [sendDataLoop_cons, if_neg (by decide), if_pos rfl]
      exact ⟨rfl, rfl⟩
  | succ fl ih =>
    intro script hP hlen
    match script, hlen with
    | r :: rs, hl2 =>
      have h0 := hP 0 (by omega)
      rw [List.getD_cons_zero] at h0
      subst h0
      rw [sendDataLoop_cons, if_neg (by decide), if_pos rfl]
      have hrec := ih rs (fun j hj => by simpa using hP (j + 1) (by omega))
        (by simpa using hl2)
      exact ⟨hrec.1, by show (data :: _).length = _; rw [List.length_cons, hrec.2]⟩

lemma sendDataLoop_can (data : List Nat) :
    ∀ (k : Nat) (script : List Nat) (mf : Nat), k ≤ mf → k < script.length →
      (∀ j < k, script.getD j 0 = xNAK) → script.getD k 0 = xCAN →
      (sendDataLoop data mf script).2.2 = .receiverCancelled := by
  intro k
  induction k with
  | zero =>
    intro script mf _ hlen _ hCan
    match script, hlen with
    | r :: rs, hl2 =>
      rw [List.getD_cons_zero] at hCan
      subst hCan
      rw [sendDataLoop_cons, if_neg (by decide), if_neg (by decide),
        if_pos rfl]
  | succ k ih =>
    intro script mf hk hlen hP hCan
    match script, hlen with
    | r :: rs, hl2 =>
      have h0 := hP 0 (by omega)
      rw [List.getD_cons_zero] at h0
      subst h0
      match mf, hk with
      | fl + 1, _ =>
        rw [sendDataLoop_cons, if_neg (by decide), if_pos rfl]
        exact ih rs fl (by omega) (by simpa using hl2)
          (fun j hj => by simpa using hP (j + 1) (by omega)) (by simpa using hCan)

lemma sendDataLoop_framing (data : List Nat) :
    ∀ (k : Nat) (script : List Nat) (mf : Nat), k ≤ mf → k < script.length →
      (∀ j < k, script.getD j 0 = xNAK) → script.getD k 0 ≠ xACK →
      script.getD k 0 ≠ xNAK → script.getD k 0 ≠ xCAN →
      (sendDataLoop data mf script).2.2 = .framingError := by
  intro k
  induction k with
  | zero =>
    intro script mf _ hlen _ hA hN hC
    match script, hlen with
    | r :: rs, hl2 =>
      rw [List.getD_cons_zero] at hA hN hC
      rw [sendDataLoop_cons, if_neg hA, if_neg hN, if_neg hC]
  | succ k ih =>
    intro script mf hk hlen hP hA hN hC
    match script, hlen with
    | r :: rs, hl2 =>
      have h0 := hP 0 (by omega)
      rw [List.getD_cons_zero] at h0
      subst h0
      match mf, hk with
      | fl + 1, _ =>
        rw [sendDataLoop_cons, if_neg (by decide), if_pos rfl]
        exact ih rs fl (by omega) (by simpa using hl2)
          (fun j hj => by simpa using hP (j + 1) (by omega)) (by simpa using hA)
          (by simpa using hN) (by simpa using hC)

lemma sendBlocksLoop_allAck (data : List Nat) (total mf : Nat) :
    ∀ (is : List Nat) (m : Nat),
      (∀ i ∈ is, 128 * (i + 1) ≤ data.length) →
      sendBlocksLoop data total mf is (List.replicate (is.length + m) xACK) =
        (is.map (xmodemBlockBytes data),
         is.map (fun i => (128 * (i + 1), total)),
         List.replicate m xACK, .ok) := by
  intro is
  induction is with
  | nil => intro m _; simp [sendBlocksLoop]
  | cons i is ih =>
    intro m hbound
    have hpl : ((data.drop (128 * i)).take 128).length = 128 := by
      have h1 := hbound i (List.mem_cons_self i is)
      simp [List.length_take, List.length_drop]
      omega
    have hser : xmodemPacketSerialize ((i + 1) % 256) ((data.drop (128 * i)).take 128) =
        some (xmodemBlockBytes data i) := by
      rw [xmodemPacketSerialize, if_pos ⟨hpl, Nat.mod_lt _ (by omega)⟩]
      rfl
    have hrep : List.replicate ((i :: is).length + m) xACK =
        xACK :: List.replicate (is.length + m) xACK := by
      rw [List.length_cons]
      rw [show is.length + 1 + m = (is.length + m) + 1 from by omega]
      rfl
    rw [hrep, sendBlocksLoop, hser]
    dsimp only
    rw [sendDataLoop_cons, if_pos rfl]
    dsimp only
    rw [ih m (fun j hj => hbound j (List.mem_cons_of_mem i hj))]
    rfl

lemma send_xmodem128_crc_allAck (data : List Nat) (mf k : Nat)
    (hlen : data.length = 128 * k) :
    send_xmodem128_crc data mf (List.replicate (k + 1) xACK) =
      ((List.range k).map (xmodemBlockBytes data) ++ [[xEOT]],
       (0, data.length) ::
         (List.range k).map (fun i => (128 * (i + 1), data.length)),
       .ok) := by
  rw [send_xmodem128_crc, if_neg (by omega)]
  have hdiv : data.length / 128 = k := by omega
  have hrep : List.replicate (k + 1) xACK =
      List.replicate ((List.range (data.length / 128)).length + 1) xACK := by
    rw [List.length_range, hdiv]
  rw [hrep, sendBlocksLoop_allAck data data.length mf (List.range (data.length / 128)) 1
    (fun i hi => by
      rw [List.mem_range, hdiv] at hi
      omega)]
  dsimp only
  rw [show (List.replicate 1 xACK) = xACK :: ([] : List Nat) from rfl,
    sendDataLoop_cons, if_pos rfl]
  rw [hdiv]

lemma send_xmodem128_crc_reject (data : List Nat) (mf : Nat) (script : List Nat)
    (h : data.length % 128 ≠ 0) :
    send_xmodem128_crc data mf script = ([], [], .invalidArgument) := by
  rw [send_xmodem128_crc, if_pos h]

/-! ## Version (`common.py`, classes `VersionComponent` and `Version`)

A component is comparable (an integer, from a piece that `isdigit` accepts)
or non-comparable (the piece itself, including the separator pieces that
`re.split` keeps and any empty pieces).  The split is on the separator set
`.` `-` `/` `_` and the token `" build "`; the separators start with
pairwise-distinct characters and none occurs inside another, so the leftmost-
match scan below is exactly `re.split` with the capture group. -/

/-- `natListLt` is the integer-tuple order: either the lists agree on a
common prefix and then the left one is smaller, or the left list is a strict
prefix of the right one. -/
lemma natListLt_iff : ∀ (A B : List Nat),
    natListLt A B = true ↔
      (∃ i, i < A.length ∧ i < B.length ∧ A.take i = B.take i ∧
        A.getD i 0 < B.getD i 0) ∨
      (A.length < B.length ∧ A = B.take A.length) := by
  intro A
  induction A with
  | nil =>
    intro B
    cases B with
    | nil => simp [natListLt]
    | cons b bs => simp [natListLt]
  | cons a as ih =>
    intro B
    cases B with
    | nil => simp [natListLt]
    | cons b bs =>
      rw [natListLt]
      by_cases hab : a < b
      · rw [if_pos hab]
        constructor
        · intro _
          exact Or.inl ⟨0, by simp, by simp, by simp, by simpa using hab⟩
        · intro _; rfl
      · rw [if_neg hab]
        by_cases hba : b < a
        · rw [if_pos hba]
          constructor
          · intro h; exact absurd h (by decide)
          · rintro (⟨i, h1, h2, h3, h4⟩ | ⟨h1, h2⟩) <;> exfalso
            · cases i with
              | zero => simp at h4; omega
              | succ i =>
                have : a = b := by
                  have := congrArg (fun l => l.headD 0) h3
                  simpa using this
                omega
            · have : a = b := by
                have := congrArg (fun l => l.headD 0) h2
                simpa using this
              omega
        · rw [if_neg hba]
          have hab2 : a = b := by omega
          subst hab2
          rw [ih bs]
          constructor
          · rintro (⟨i, h1, h2, h3, h4⟩ | ⟨h1, h2⟩)
            · exact Or.inl ⟨i + 1, by simpa using h1, by simpa using h2,
                by simpa using h3, by simpa using h4⟩
            · exact Or.inr ⟨by simpa using h1, by simpa using h2⟩
          · rintro (⟨i, h1, h2, h3, h4⟩ | ⟨h1, h2⟩)
            · cases i with
              | zero => simp at h4
              | succ i =>
                refine Or.inl ⟨i, by simpa using h1, by simpa using h2, ?_, ?_⟩
                · have := congrArg List.tail h3
                  simpa using this
                · simpa using h4
            · refine Or.inr ⟨by simpa using h1, ?_⟩
              have := congrArg List.tail h2
              simpa using this

/-! ## `put_first` and the constant tables (`common.py`, `const.py`) -/

lemma geckoFeedAll_inMenu (chunks : List (List Nat)) :
    ∀ b, (geckoFeedAll (.inMenu, b) chunks).1 = .inMenu := by
  induction chunks with
  | nil => intro b; rfl
  | cons c cs ih =>
    intro b
    show (geckoFeedAll (geckoDataReceived .inMenu b c) cs).1 = .inMenu
    rw [show geckoDataReceived .inMenu b c = (.inMenu, b ++ c) from rfl]
    exact ih (b ++ c)

lemma menuSearch_nil : menuSearch [] = false := by decide

lemma geckoFeedAll_waiting_iff (chunks : List (List Nat)) :
    ∀ (buffer : List Nat), menuSearch buffer = false →
      ((geckoFeedAll (.waitingForMenu, buffer) chunks).1 = .inMenu ↔
        ∃ i, i ≤ chunks.length ∧
          menuSearch (buffer ++ (chunks.take i).flatten) = true) := by
  induction chunks with
  | nil =>
    intro buffer hb
    constructor
    · intro h; exact absurd h (by simp [geckoFeedAll])
    · rintro ⟨i, hi, hm⟩
      have : i = 0 := by simpa using hi
      subst this
      simp at hm
      rw [hm] at hb
      exact absurd hb (by simp)
  | cons c cs ih =>
    intro buffer hb
    show ((geckoFeedAll (geckoDataReceived .waitingForMenu buffer c) cs).1 = _) ↔ _
    by_cases hm : menuSearch (buffer ++ c) = true
    · have hne : buffer ++ c ≠ [] := by
        intro he
        rw [he] at hm
        exact absurd (menuSearch_nil ▸ hm) (by simp)
      rw [show geckoDataReceived .waitingForMenu buffer c = (.inMenu, []) from by
        simp [geckoDataReceived, hne, hm]]
      rw [geckoFeedAll_inMenu]
      simp only [true_iff]
      exact ⟨1, by simp, by simpa using hm⟩
    · have hstep : geckoDataReceived .waitingForMenu buffer c =
          (.waitingForMenu, buffer ++ c) := by
        by_cases hne : buffer ++ c = []
        · simp [geckoDataReceived, hne]
        · simp [geckoDataReceived, hne, hm]
      rw [hstep, ih (buffer ++ c) (by simpa using hm)]
      constructor
      · rintro ⟨i, hi, hmi⟩
        exact ⟨i + 1, by simpa using hi, by simpa [List.append_assoc] using hmi⟩
      · rintro ⟨i, hi, hmi⟩
        cases i with
        | zero =>
          simp at hmi
          rw [hmi] at hb
          exact absurd hb (by simp)
        | succ i =>
          exact ⟨i, by simpa using hi, by simpa [List.append_assoc] using hmi⟩

/-! ## Valid wire strings and concrete codec witnesses

Per the spec's data model every wire string is produced by the byte-exact
format it defines, so the valid wire byte strings of a codec are exactly the
encodings of its valid values. -/

/-- C4: for each framing codec — HDLC-Lite frame, Spinel frame, CPC
unnumbered frame, CPC transport frame, GBL image, EBL image — decoding the
encoding of any valid value yields the value back, and encoding the decoding
of any valid wire byte string yields the byte string back (valid wire bytes
being the byte strings the spec's byte-exact format produces, i.e. the
encodings of valid values). -/
theorem C4_codec_roundtrips :
    (∀ d : List Nat, hdlcFromBytes (hdlcSerialize d) = .ok d) ∧
    (∀ b, HdlcValidWire b → ∃ d, hdlcFromBytes b = .ok d ∧ hdlcSerialize d = b) ∧
    (∀ (f : SpinelFrame) (bs : List Nat), SpinelFrameValid f →
      spinelFrameSerialize f = some bs → spinelFrameFromBytes bs = .ok f) ∧
    (∀ b, SpinelValidWire b → ∃ f, spinelFrameFromBytes b = .ok f ∧
      spinelFrameSerialize f = some b) ∧
    (∀ (f : CpcUnnumberedFrame) (bs : List Nat), CpcUnnumberedValid f →
      cpcUnnumberedToBytes f = some bs → cpcUnnumberedFromBytes bs = .ok f) ∧
    (∀ b, CpcUnnumberedValidWire b → ∃ f, cpcUnnumberedFromBytes b = .ok f ∧
      cpcUnnumberedToBytes f = some b) ∧
    (∀ (f : CpcTransportFrame) (bs : List Nat), CpcTransportValid f →
      cpcTransportSerialize f = some bs →
      cpcTransportDeserialize bs = .ok (f, [])) ∧
    (∀ b, CpcTransportValidWire b → ∃ f, cpcTransportDeserialize b = .ok (f, []) ∧
      cpcTransportSerialize f = some b) ∧
    (∀ (tags : List (Nat × List Nat)) (bs : List Nat), GblValid tags →
      gblSerialize tags = some bs → gblParse bs = .ok tags) ∧
    (∀ b, GblValidWire b → ∃ tags, gblParse b = .ok tags ∧
      gblSerialize tags = some b) ∧
    (∀ (tags : List (Nat × List Nat)) (bs : List Nat), EblValid tags →
      eblSerialize tags = some bs → eblParse bs = .ok tags) ∧
    (∀ b, EblValidWire b → ∃ tags, eblParse b = .ok tags ∧
      eblSerialize tags = some b) := by
  have hT : ∀ (f : CpcTransportFrame) (bs : List Nat), CpcTransportValid f →
      cpcTransportSerialize f = some bs →
      cpcTransportDeserialize bs = .ok (f, []) := by
    intro f bs hv h
    have := cpcTransportDeserialize_serialize hv h []
    rwa [List.append_nil] at this
  refine ⟨hdlcFromBytes_serialize, ?_,
    fun f bs hv h => spinelFrameFromBytes_serialize hv h, ?_,
    fun f bs hv h => cpcUnnumberedFromBytes_toBytes hv h, ?_,
    hT, ?_,
    fun tags bs hv h => gblParse_serialize hv h, ?_,
    fun tags bs hv h => eblParse_serialize hv h, ?_⟩
  · rintro b ⟨d, rfl⟩
    exact ⟨d, hdlcFromBytes_serialize d, rfl⟩
  · rintro b ⟨f, hv, h⟩
    exact ⟨f, spinelFrameFromBytes_serialize hv h, h⟩
  · rintro b ⟨f, hv, h⟩
    exact ⟨f, cpcUnnumberedFromBytes_toBytes hv h, h⟩
  · rintro b ⟨f, hv, h⟩
    exact ⟨f, hT f b hv h, h⟩
  · rintro b ⟨tags, hv, h⟩
    exact ⟨tags, gblParse_serialize hv h, h⟩
  · rintro b ⟨tags, hv, h⟩
    exact ⟨tags, eblParse_serialize hv h, h⟩

/-- C4 witness: each forward round trip and each valid-wire round trip at a
concrete value — the spec's HDLC example payload `81 02 43`, the concrete
Spinel / CPC frames, and minimal GBL / EBL images. -/
theorem C4_witness :
    hdlcFromBytes (hdlcSerialize [0x81, 0x02, 0x43]) = .ok [0x81, 0x02, 0x43] ∧
    spinelFrameFromBytes spinelWitnessBytes = .ok spinelWitnessFrame ∧
    cpcUnnumberedFromBytes cpcUnnWitnessBytes = .ok cpcUnnWitnessFrame ∧
    cpcTransportDeserialize cpcWitnessBytes = .ok (cpcWitnessFrame, []) ∧
    gblParse gblWitnessBytes = .ok gblWitnessTags ∧
    eblParse eblWitnessBytes = .ok eblWitnessTags :=
  ⟨C4_codec_roundtrips.1 [0x81, 0x02, 0x43],
   C4_codec_roundtrips.2.2.1 spinelWitnessFrame spinelWitnessBytes (by decide)
     (by decide),
   C4_codec_roundtrips.2.2.2.2.1 cpcUnnWitnessFrame cpcUnnWitnessBytes (by decide)
     (by decide),
   C4_codec_roundtrips.2.2.2.2.2.2.1 cpcWitnessFrame cpcWitnessBytes (by decide)
     (by decide),
   C4_codec_roundtrips.2.2.2.2.2.2.2.2.1 gblWitnessTags gblWitnessBytes (by decide)
     (by decide),
   C4_codec_roundtrips.2.2.2.2.2.2.2.2.2.2.1 eblWitnessTags eblWitnessBytes
     (by decide) (by decide)⟩

/-- C1 (amended): in `CPCProtocol.send_unnumbered_frame` the pending-frames
entry registered for the request's command sequence is removed on every exit
path — response, retry/timeout exhaustion, and cancellation — and the same
holds for `SpinelProtocol.send_frame` with `wait_response=True`; with
`wait_response=False` the call returns with the transaction-id entry still
registered (the early return precedes the `try/finally`). -/
theorem C1_pending_entry_removed :
    (∀ (st : CpcClientState) (retries : Nat) (sched : List AttemptOutcome),
      st.commandSeq ∉ st.pendingFrames →
        (cpcSendUnnumberedFrame st retries sched).2.pendingFrames =
            st.pendingFrames ∧
          st.commandSeq ∉ (cpcSendUnnumberedFrame st retries sched).2.pendingFrames) ∧
    (∀ (st : SpinelClientState) (retries : Nat) (sched : List AttemptOutcome),
      1 + (st.transactionId + 1) % 14 ∉ st.pendingFrames →
        (spinelSendFrame st true retries sched).2.pendingFrames =
            st.pendingFrames ∧
          1 + (st.transactionId + 1) % 14 ∉
            (spinelSendFrame st true retries sched).2.pendingFrames) ∧
    (∀ (st : SpinelClientState) (retries : Nat) (sched : List AttemptOutcome),
      1 + (st.transactionId + 1) % 14 ∈
        (spinelSendFrame st false retries sched).2.pendingFrames) := by
  refine ⟨?_, ?_, ?_⟩
  · intro st retries sched h
    constructor
    · show (insert st.commandSeq st.pendingFrames).erase st.commandSeq =
        st.pendingFrames
      exact Finset.erase_insert h
    · show st.commandSeq ∉
        (insert st.commandSeq st.pendingFrames).erase st.commandSeq
      exact Finset.not_mem_erase _ _
  · intro st retries sched h
    constructor
    · show (insert (1 + (st.transactionId + 1) % 14) st.pendingFrames).erase
        (1 + (st.transactionId + 1) % 14) = st.pendingFrames
      exact Finset.erase_insert h
    · show 1 + (st.transactionId + 1) % 14 ∉
        (insert (1 + (st.transactionId + 1) % 14) st.pendingFrames).erase
          (1 + (st.transactionId + 1) % 14)
      exact Finset.not_mem_erase _ _
  · intro st retries sched
    exact Finset.mem_insert_self _ _

/-- C1 witness: the cleanup equations at concrete states and schedules. -/
theorem C1_witness :
    (cpcSendUnnumberedFrame ⟨7, {3}⟩ 3 [.timeout, .response]).2.pendingFrames = {3} ∧
    (spinelSendFrame ⟨0, ∅⟩ true 3 [.cancelled]).2.pendingFrames = ∅ ∧
    2 ∈ (spinelSendFrame ⟨0, ∅⟩ false 3 []).2.pendingFrames :=
  ⟨(C1_pending_entry_removed.1 ⟨7, {3}⟩ 3 [.timeout, .response] (by decide)).1,
   (C1_pending_entry_removed.2.1 ⟨0, ∅⟩ 3 [.cancelled] (by decide)).1,
   C1_pending_entry_removed.2.2 ⟨0, ∅⟩ 3 []⟩

/-- C1 counterexample: a `send_frame` call with `wait_response=False` (from
transaction id 0, empty pending map; the request is sent under transaction
id 2) finishes with the entry for its transaction id still registered in the
pending-frames map — it is not removed by the time the call finishes. -/
theorem C1_counterexample :
    2 ∈ (spinelSendFrame ⟨0, ∅⟩ false 3 []).2.pendingFrames ∧
      (spinelSendFrame ⟨0, ∅⟩ false 3 []).2.pendingFrames ≠ ∅ := by
  decide

/-- C2: on the seven-byte buffer `14 00 00 00 00 00 00` (flag byte first,
header CRC invalid) `CPCTransportFrame.deserialize` raises `ValueError`, the
resync `buffer[buffer.find(FLAG):]` leaves the buffer unchanged because the
flag byte is already at offset 0, and the `data_received` recovery loop
therefore never terminates, for any iteration bound. -/
theorem C2_data_received_nonterminating :
    cpcTransportDeserialize [0x14, 0, 0, 0, 0, 0, 0] = .error .valueError ∧
    cpcDataReceivedStep [0x14, 0, 0, 0, 0, 0, 0] =
      .next [0x14, 0, 0, 0, 0, 0, 0] none ∧
    ∀ fuel, cpcDataReceivedLoop fuel [0x14, 0, 0, 0, 0, 0, 0] = none := by
  refine ⟨rfl, rfl, ?_⟩
  intro fuel
  induction fuel with
  | zero => rfl
  | succ n ih =>
    rw [cpcDataReceivedLoop]
    rw [show cpcDataReceivedStep [0x14, 0, 0, 0, 0, 0, 0] =
      .next [0x14, 0, 0, 0, 0, 0, 0] none from rfl]
    exact ih

/-- C3: `PackedUInt21.serialize` raises `IndexError` on zero (it produces no
chunks and indexes `chunks[-1]` on the empty list) instead of emitting the
single octet `0x00`; for every nonzero value below `2^21` it emits one to
three octets, the continuation bit set on all but the final octet and clear
on the final one. -/
theorem C3_packed_serialize :
    packedSerialize 0 = none ∧
    ∀ n, 0 < n → n < 2097152 →
      ∃ bs, packedSerialize n = some bs ∧ 1 ≤ bs.length ∧ bs.length ≤ 3 ∧
        (∀ i, i + 1 < bs.length → 128 ≤ bs.getD i 0 ∧ bs.getD i 0 < 256) ∧
        bs.getD (bs.length - 1) 0 < 128 := by
  refine ⟨by decide, ?_⟩
  intro n h0 hlt
  rcases Nat.lt_or_ge n 128 with hc | hc
  · refine ⟨[n], packedSerialize_eq_small h0 hc, by simp, by simp, ?_, ?_⟩
    · intro i hi; simp at hi
    · simpa using hc
  · rcases Nat.lt_or_ge n 16384 with hc2 | hc2
    · refine ⟨[n % 128 + 128, n / 128], packedSerialize_eq_mid hc hc2,
        by simp, by simp, ?_, ?_⟩
      · intro i hi
        simp only [List.length_cons, List.length_nil] at hi
        have : i = 0 := by omega
        subst this
        simp only [List.getD_cons_zero]
        omega
      · show (n / 128) < 128
        omega
    · refine ⟨[n % 128 + 128, n / 128 % 128 + 128, n / 16384],
        packedSerialize_eq_large hc2 hlt, by simp, by simp, ?_, ?_⟩
      · intro i hi
        simp only [List.length_cons, List.length_nil] at hi
        match i, hi with
        | 0, _ => simp only [List.getD_cons_zero]; omega
        | 1, _ =>
          simp only [List.getD_cons_succ, List.getD_cons_zero]
          omega
      · show n / 16384 < 128
        omega

/-- C3 witness: the nonzero branch at 300 (two octets, `AC 02`). -/
theorem C3_witness :
    ∃ bs, packedSerialize 300 = some bs ∧ 1 ≤ bs.length ∧ bs.length ≤ 3 ∧
      (∀ i, i + 1 < bs.length → 128 ≤ bs.getD i 0 ∧ bs.getD i 0 < 256) ∧
      bs.getD (bs.length - 1) 0 < 128 :=
  C3_packed_serialize.2 300 (by decide) (by decide)

/-- C5: for data of length `128 * k` (`k ≥ 1`) and a receiver that sends one
`C` and then ACKs every transmission, `send_xmodem128_crc` writes exactly, in
order, for each block index `i` the packet `SOH`, number `(i+1) % 256`,
complement `0xFF - number`, the 128-byte slice `data[128i..128(i+1))`, and the
big-endian CRC-16/CCITT of that slice, followed by a single EOT byte; block
numbers wrap past 255 to 0; progress is reported as `(0, total)` once before
the first block and `(128(i+1), total)` after each block; data whose length
is not a multiple of 128 is rejected before anything is sent. -/
theorem C5_xmodem_happy_path :
    (∀ (data : List Nat) (mf k : Nat), 0 < k → data.length = 128 * k →
      send_xmodem128_crc data mf (List.replicate (k + 1) xACK) =
        ((List.range k).map (xmodemBlockBytes data) ++ [[xEOT]],
         (0, data.length) ::
           (List.range k).map (fun i => (128 * (i + 1), data.length)),
         .ok)) ∧
    (∀ (data : List Nat) (i : Nat),
      (xmodemBlockBytes data i).getD 1 0 = (i + 1) % 256) ∧
    (∀ (data : List Nat) (mf : Nat) (script : List Nat),
      data.length % 128 ≠ 0 →
      send_xmodem128_crc data mf script = ([], [], .invalidArgument)) := by
  refine ⟨?_, ?_, ?_⟩
  · intro data mf k _ hlen
    exact send_xmodem128_crc_allAck data mf k hlen
  · intro data i
    rfl
  · intro data mf script h
    exact send_xmodem128_crc_reject data mf script h

/-- C5 witness: a 256-byte all-zero image with an always-ACK receiver, and a
3-byte input rejected as not a multiple of the block size. -/
theorem C5_witness :
    send_xmodem128_crc (List.replicate 256 0) 3 (List.replicate 3 xACK) =
      ((List.range 2).map (xmodemBlockBytes (List.replicate 256 0)) ++ [[xEOT]],
       (0, (List.replicate 256 (0 : Nat)).length) ::
         (List.range 2).map
           (fun i => (128 * (i + 1), (List.replicate 256 (0 : Nat)).length)),
       .ok) ∧
    send_xmodem128_crc [1, 2, 3] 3 [xACK] = ([], [], .invalidArgument) :=
  ⟨C5_xmodem_happy_path.1 (List.replicate 256 0) 3 2 (by decide) (by decide),
   C5_xmodem_happy_path.2.2 [1, 2, 3] 3 [xACK] (by decide)⟩

/-- C6: the per-block send loop returns successfully iff one of its at most
`max_failures + 1` transmissions is answered with ACK; every transmission is
of the same block; `k` leading NAKs cause `k` retransmissions, the ACK
arriving after `k ≤ max_failures` NAKs means `k + 1` transmissions;
`max_failures + 1` consecutive NAKs fail with the too-many-failures error
after exactly `max_failures + 1` transmissions; a CAN response immediately
raises `ReceiverCancelled`; any response byte other than ACK, NAK or CAN
immediately fails as a framing error. -/
theorem C6_block_retry_policy :
    (∀ (data script : List Nat) (mf : Nat),
      ((sendDataLoop data mf script).2.2 = .ok ↔
        ∃ k, k ≤ mf ∧ k < script.length ∧ (∀ j < k, script.getD j 0 = xNAK) ∧
          script.getD k 0 = xACK)) ∧
    (∀ (data script : List Nat) (mf : Nat),
      (sendDataLoop data mf script).1 =
        List.replicate (sendDataLoop data mf script).1.length data) ∧
    (∀ (data script : List Nat) (mf k : Nat), k ≤ mf → k < script.length →
      (∀ j < k, script.getD j 0 = xNAK) → script.getD k 0 = xACK →
      (sendDataLoop data mf script).1.length = k + 1) ∧
    (∀ (data script : List Nat) (mf : Nat),
      (∀ j ≤ mf, script.getD j 0 = xNAK) → mf < script.length →
      (sendDataLoop data mf script).2.2 = .tooManyFailures ∧
        (sendDataLoop data mf script).1.length = mf + 1) ∧
    (∀ (data script : List Nat) (mf k : Nat), k ≤ mf → k < script.length →
      (∀ j < k, script.getD j 0 = xNAK) → script.getD k 0 = xCAN →
      (sendDataLoop data mf script).2.2 = .receiverCancelled) ∧
    (∀ (data script : List Nat) (mf k : Nat), k ≤ mf → k < script.length →
      (∀ j < k, script.getD j 0 = xNAK) → script.getD k 0 ≠ xACK →
      script.getD k 0 ≠ xNAK → script.getD k 0 ≠ xCAN →
      (sendDataLoop data mf script).2.2 = .framingError) :=
  ⟨fun data script mf => sendDataLoop_ok_iff data script mf,
   fun data script mf => sendDataLoop_writes data script mf,
   fun data script mf k h1 h2 h3 h4 => sendDataLoop_ack_writes data k script mf h1 h2 h3 h4,
   fun data script mf h1 h2 => sendDataLoop_all_nak data mf script h1 h2,
   fun data script mf k h1 h2 h3 h4 => sendDataLoop_can data k script mf h1 h2 h3 h4,
   fun data script mf k h1 h2 h3 h4 h5 h6 =>
     sendDataLoop_framing data k script mf h1 h2 h3 h4 h5 h6⟩

/-- C6 witness: a NAK-then-ACK script (two transmissions), an all-NAK script
exhausting `max_failures = 1`, an immediate CAN, and an invalid response
byte. -/
theorem C6_witness :
    (sendDataLoop [7] 3 [xNAK, xACK]).1.length = 2 ∧
    ((sendDataLoop [7] 1 [xNAK, xNAK]).2.2 = .tooManyFailures ∧
      (sendDataLoop [7] 1 [xNAK, xNAK]).1.length = 2) ∧
    (sendDataLoop [7] 3 [xCAN]).2.2 = .receiverCancelled ∧
    (sendDataLoop [7] 3 [0]).2.2 = .framingError :=
  ⟨C6_block_retry_policy.2.2.1 [7] [xNAK, xACK] 3 1 (by decide) (by decide)
      (by decide) (by decide),
   C6_block_retry_policy.2.2.2.1 [7] [xNAK, xNAK] 1 (by decide) (by decide),
   C6_block_retry_policy.2.2.2.2.1 [7] [xCAN] 3 0 (by decide) (by decide)
      (by decide) (by decide),
   C6_block_retry_policy.2.2.2.2.2 [7] [0] 3 0 (by decide) (by decide)
      (by decide) (by decide) (by decide) (by decide)⟩

/-- C7: `compatible_with` is true iff the first `min(|A|, |B|)` comparable
components agree; ordering compares only the comparable components as integer
tuples (first differing position decides, a strict prefix is smaller); and
the spec's concrete build-number examples hold. -/
theorem C7_version_compat_and_order :
    (∀ a b : List VersionComponent,
      compatible_with a b = true ↔
        (comparableComponents a).take
            (min (comparableComponents a).length (comparableComponents b).length) =
          (comparableComponents b).take
            (min (comparableComponents a).length (comparableComponents b).length)) ∧
    (∀ a b : List VersionComponent,
      versionLt a b = true ↔
        ((∃ i, i < (comparableComponents a).length ∧
            i < (comparableComponents b).length ∧
            (comparableComponents a).take i = (comparableComponents b).take i ∧
            (comparableComponents a).getD i 0 < (comparableComponents b).getD i 0) ∨
          ((comparableComponents a).length < (comparableComponents b).length ∧
            comparableComponents a =
              (comparableComponents b).take (comparableComponents a).length))) ∧
    compatible_with (Version.parse "7.2.2.0")
      (Version.parse "7.2.2.0 build 190") = true ∧
    versionLt (Version.parse "7.2.2.0 build 190")
      (Version.parse "7.2.2.0 build 191") = true ∧
    compatible_with (Version.parse "7.2.2.0 build 191")
      (Version.parse "7.2.2.0 build 190") = false := by
  refine ⟨?_, ?_, by decide, by decide, by decide⟩
  · intro a b
    simp [compatible_with]
  · intro a b
    exact natListLt_iff _ _

/-- C8: `run_firmware`, started from `IN_MENU`, sets the state to
`WAITING_FOR_MENU`, sends the byte `'2'`, and raises `NoFirmware` iff the
menu is re-detected (a `MENU_REGEX` match over the bytes received) within
the `RUN_APPLICATION_DELAY` window; if the window elapses without menu
re-entry it returns successfully. -/
theorem C8_run_firmware (startState : GeckoState) (chunks : List (List Nat))
    (h : startState = .inMenu) :
    ∃ r, run_firmware startState chunks = some r ∧
      r.stateSetBeforeSend = .waitingForMenu ∧
      r.sent = [strBytes "2"] ∧
      (r.outcome = .noFirmware ↔
        ∃ i, i ≤ chunks.length ∧ menuSearch ((chunks.take i).flatten) = true) := by
  subst h
  rw [run_firmware, if_neg (by simp)]
  refine ⟨_, rfl, rfl, rfl, ?_⟩
  have hiff := geckoFeedAll_waiting_iff chunks [] menuSearch_nil
  simp only [List.nil_append] at hiff
  by_cases hc : (geckoFeedAll (.waitingForMenu, []) chunks).1 = .inMenu
  · rw [if_pos hc]
    simp only [true_iff]
    exact hiff.mp hc
  · rw [if_neg hc]
    constructor
    · intro hco; exact absurd hco (by decide)
    · intro hex; exact absurd (hiff.mpr hex) hc

/-- C8 witness: the actual bootloader menu text re-appearing within the
window triggers `NoFirmware`; with no data in the window the call
succeeds. -/
theorem C8_witness :
    (∃ r, run_firmware .inMenu
        [strBytes "\r\nGecko Bootloader v1.12.0\r\n1. upload gbl\r\n2. run\r\n3. ebl info\r\nBL > "] =
        some r ∧
      r.stateSetBeforeSend = .waitingForMenu ∧
      r.sent = [strBytes "2"] ∧
      (r.outcome = .noFirmware ↔
        ∃ i, i ≤ ([strBytes "\r\nGecko Bootloader v1.12.0\r\n1. upload gbl\r\n2. run\r\n3. ebl info\r\nBL > "] : List (List Nat)).length ∧
          menuSearch ((([strBytes "\r\nGecko Bootloader v1.12.0\r\n1. upload gbl\r\n2. run\r\n3. ebl info\r\nBL > "] : List (List Nat)).take i).flatten) = true)) :=
  C8_run_firmware .inMenu _ rfl

/-- C9: `put_first(lst, elements)` returns `elements` followed by exactly the
members of `lst` not in `elements`, preserving their relative order (a
sublist of `lst`); with the default probe order and firmware type
OPENTHREAD_RCP (mapped to SPINEL) the reordered probe list is
`[BOOTLOADER, SPINEL, CPC, EZSP]`. -/
theorem C9_put_first :
    (∀ (α : Type) (inst : DecidableEq α) (lst elements : List α),
      (∀ x, x ∈ @put_first α inst lst elements ↔
        x ∈ elements ∨ (x ∈ lst ∧ x ∉ elements)) ∧
      (@put_first α inst lst elements).take elements.length = elements ∧
      (@put_first α inst lst elements).drop elements.length =
        lst.filter (fun e => e ∉ elements) ∧
      ((@put_first α inst lst elements).drop elements.length).Sublist lst) ∧
    FW_IMAGE_TYPE_TO_APPLICATION_TYPE .openthread_rcp = some .spinel ∧
    put_first defaultProbeMethods [.gecko_bootloader, .spinel] =
      [.gecko_bootloader, .spinel, .cpc, .ezsp] := by
  refine ⟨?_, rfl, by decide⟩
  intro α inst lst elements
  refine ⟨?_, List.take_left _ _, List.drop_left _ _, ?_⟩
  · intro x
    simp [put_first, List.mem_filter, decide_eq_true_eq, List.mem_append]
  · show (List.drop elements.length
      (elements ++ lst.filter (fun e => decide (e ∉ elements)))).Sublist lst
    rw [List.drop_left]
    exact List.filter_sublist lst

/-- C10 (amended): `NabuCasaMetadata.from_json` succeeds for every object
with `metadata_version ≤ 2` whose `fw_type` is a non-empty string that, after
the legacy remapping, is not a `FirmwareImageType` member, and the resulting
metadata has `fw_type = None` with all other fields parsed as usual.  (A
falsy `fw_type` value — the empty string — skips the conversion block
entirely and is stored unchanged, not as `None`.) -/
theorem C10_unknown_fw_type (obj : MetadataJson) (mv : Int) (s : String)
    (h1 : obj.metadata_version = some mv) (h2 : mv ≤ 2) (h3 : obj.fw_type = some s)
    (h4 : s ≠ "") (h5 : LEGACY_FIRMWARE_TYPE_REMAPPING s = none)
    (h6 : firmwareImageTypeOfString s = none) :
    NabuCasaMetadata.from_json obj =
      .ok { metadata_version := mv
            sdk_version := parseVersionField obj.sdk_version
            ezsp_version := parseVersionField obj.ezsp_version
            ot_rcp_version := parseVersionField obj.ot_rcp_version
            cpc_version := parseVersionField obj.cpc_version
            fw_type := .pyNone
            fw_variant := obj.fw_variant
            baudrate := obj.baudrate } := by
  rw [NabuCasaMetadata.from_json, h1]
  dsimp only
  rw [if_neg (by simp [NABUCASA_METADATA_VERSION]; omega)]
  have hft : parseFwTypeField obj.fw_type = .pyNone := by
    rw [h3, parseFwTypeField, if_neg h4, h5, h6]
  rw [hft]

/-- C10 witness: an unknown non-empty fw_type string parses to `None` with
the other fields intact. -/
theorem C10_witness :
    NabuCasaMetadata.from_json
        ⟨some 2, some "4.4.4", none, none, none, some "mystery", none,
          some 115200⟩ =
      .ok { metadata_version := 2
            sdk_version := parseVersionField (some "4.4.4")
            ezsp_version := .pyNone
            ot_rcp_version := .pyNone
            cpc_version := .pyNone
            fw_type := .pyNone
            fw_variant := none
            baudrate := some 115200 } :=
  C10_unknown_fw_type
    ⟨some 2, some "4.4.4", none, none, none, some "mystery", none, some 115200⟩
    2 "mystery" rfl (by decide) rfl (by decide) (by decide) (by decide)

/-- C10 counterexample: with `fw_type` the empty string (not a member of the
enum after remapping) parsing succeeds but the resulting metadata's
`fw_type` is the raw empty string, not `None`. -/
theorem C10_counterexample :
    NabuCasaMetadata.from_json ⟨some 2, none, none, none, none, some "", none, none⟩ =
      .ok { metadata_version := 2
            sdk_version := .pyNone
            ezsp_version := .pyNone
            ot_rcp_version := .pyNone
            cpc_version := .pyNone
            fw_type := .rawStr ""
            fw_variant := none
            baudrate := none } ∧
    FwTypeSlot.rawStr "" ≠ FwTypeSlot.pyNone := by
  refine ⟨rfl, by decide⟩

end USF

